import Mathlib

/-!
Verification of the proxyprice pricing pipeline
(`backend/scripts/parse_csv.py`, `normalize.py`, `validate_output.py`).

The Python values flowing through the scripts are embedded as `JVal`;
dictionaries are association lists with Python's lookup/update semantics.
Machine floats are modelled as exact rationals, with Python's `round`
(round half to even at a decimal position) made explicit.
-/

namespace ProxyPrice

/-- A Python/JSON value as it appears in the pipeline data. -/
inductive JVal where
  | vnull
  | vbool (b : Bool)
  | vint (n : Int)
  | vfloat (q : ℚ)
  | vstr (s : String)
  | vlist (l : List JVal)
  | vdict (d : List (String × JVal))
  deriving Repr

mutual

/-- Structural equality test on embedded values. -/
def JVal.beq : JVal → JVal → Bool
  | .vnull, .vnull => true
  | .vbool a, .vbool b => a == b
  | .vint a, .vint b => a == b
  | .vfloat a, .vfloat b => a == b
  | .vstr a, .vstr b => a == b
  | .vlist a, .vlist b => JVal.beqL a b
  | .vdict a, .vdict b => JVal.beqD a b
  | _, _ => false

/-- Equality test on lists of values. -/
def JVal.beqL : List JVal → List JVal → Bool
  | [], [] => true
  | x :: xs, y :: ys => JVal.beq x y && JVal.beqL xs ys
  | _, _ => false

/-- Equality test on association lists. -/
def JVal.beqD : List (String × JVal) → List (String × JVal) → Bool
  | [], [] => true
  | (k₁, x) :: xs, (k₂, y) :: ys => k₁ == k₂ && JVal.beq x y && JVal.beqD xs ys
  | _, _ => false

end

mutual

theorem JVal.beq_iff : ∀ x y : JVal, (JVal.beq x y = true ↔ x = y)
  | .vnull, y => by cases y <;> simp [JVal.beq]
  | .vbool a, y => by cases y <;> simp [JVal.beq]
  | .vint a, y => by cases y <;> simp [JVal.beq]
  | .vfloat a, y => by cases y <;> simp [JVal.beq]
  | .vstr a, y => by cases y <;> simp [JVal.beq]
  | .vlist a, .vnull => by simp [JVal.beq]
  | .vlist a, .vbool _ => by simp [JVal.beq]
  | .vlist a, .vint _ => by simp [JVal.beq]
  | .vlist a, .vfloat _ => by simp [JVal.beq]
  | .vlist a, .vstr _ => by simp [JVal.beq]
  | .vlist a, .vlist b => by
      have h := JVal.beqL_iff a b
      simpa [JVal.beq] using h
  | .vlist a, .vdict _ => by simp [JVal.beq]
  | .vdict a, .vnull => by simp [JVal.beq]
  | .vdict a, .vbool _ => by simp [JVal.beq]
  | .vdict a, .vint _ => by simp [JVal.beq]
  | .vdict a, .vfloat _ => by simp [JVal.beq]
  | .vdict a, .vstr _ => by simp [JVal.beq]
  | .vdict a, .vlist _ => by simp [JVal.beq]
  | .vdict a, .vdict b => by
      have h := JVal.beqD_iff a b
      simpa [JVal.beq] using h

theorem JVal.beqL_iff : ∀ a b : List JVal, (JVal.beqL a b = true ↔ a = b)
  | [], [] => by simp [JVal.beqL]
  | [], _ :: _ => by simp [JVal.beqL]
  | _ :: _, [] => by simp [JVal.beqL]
  | x :: xs, y :: ys => by
      have h₁ := JVal.beq_iff x y
      have h₂ := JVal.beqL_iff xs ys
      simp [JVal.beqL, h₁, h₂]

theorem JVal.beqD_iff : ∀ a b : List (String × JVal), (JVal.beqD a b = true ↔ a = b)
  | [], [] => by simp [JVal.beqD]
  | [], _ :: _ => by simp [JVal.beqD]
  | _ :: _, [] => by simp [JVal.beqD]
  | (k₁, x) :: xs, (k₂, y) :: ys => by
      have h₁ := JVal.beq_iff x y
      have h₂ := JVal.beqD_iff xs ys
      simp [JVal.beqD, h₁, h₂, Prod.ext_iff, and_assoc]

end

instance : DecidableEq JVal := fun x y => decidable_of_iff _ (JVal.beq_iff x y)

/-- A Python dict: an association list of string keys (unique in practice). -/
abbrev Dict := List (String × JVal)

/-- Python `d.get(k)` / `d[k]`: the value at a key, if present. -/
def dget (d : Dict) (k : String) : Option JVal :=
  match d with
  | [] => none
  | (k₁, v) :: rest => if k₁ = k then some v else dget rest k

/-- Python key membership `k in d`. -/
def containsKey (d : Dict) (k : String) : Bool :=
  d.any (fun p => p.1 = k)

/-- Python `d[k] = v`: update in place if the key exists, else append. -/
def dset (d : Dict) (k : String) (v : JVal) : Dict :=
  if containsKey d k then
    d.map (fun p => if p.1 = k then (k, v) else p)
  else d ++ [(k, v)]

theorem dget_cons (k₁ : String) (v : JVal) (rest : Dict) (k : String) :
    dget ((k₁, v) :: rest) k = if k₁ = k then some v else dget rest k := rfl

theorem containsKey_cons (k₁ : String) (v : JVal) (rest : Dict) (k : String) :
    containsKey ((k₁, v) :: rest) k = (decide (k₁ = k) || containsKey rest k) := rfl

theorem dget_none_iff_not_containsKey (d : Dict) (k : String) :
    dget d k = none ↔ containsKey d k = false := by
  induction d with
  | nil => simp [dget, containsKey]
  | cons p rest ih =>
    obtain ⟨k₁, v⟩ := p
    by_cases h : k₁ = k
    · simp [dget_cons, containsKey_cons, h]
    · simp [dget_cons, containsKey_cons, h, ih]

theorem dget_map_update (d : Dict) (k : String) (v : JVal) :
    dget (d.map (fun p => if p.1 = k then (k, v) else p)) k =
      if containsKey d k then some v else none := by
  induction d with
  | nil => simp [dget, containsKey]
  | cons p rest ih =>
    obtain ⟨k₁, v₁⟩ := p
    by_cases h : k₁ = k
    · simp [dget_cons, containsKey_cons, h]
    · simp [dget_cons, containsKey_cons, h, ih]

theorem dget_map_update_ne (d : Dict) (k k₂ : String) (v : JVal) (h : k₂ ≠ k) :
    dget (d.map (fun p => if p.1 = k then (k, v) else p)) k₂ = dget d k₂ := by
  induction d with
  | nil => simp [dget]
  | cons p rest ih =>
    obtain ⟨k₁, v₁⟩ := p
    by_cases h₁ : k₁ = k
    · subst h₁
      simp [dget_cons, Ne.symm h, ih]
    · simp only [List.map_cons, if_neg h₁]
      by_cases h₂ : k₁ = k₂ <;> simp [dget_cons, h₂, ih]

theorem dget_append_single_ne (d : Dict) (k k₂ : String) (v : JVal) (h : k₂ ≠ k) :
    dget (d ++ [(k, v)]) k₂ = dget d k₂ := by
  induction d with
  | nil => simp [dget, Ne.symm h]
  | cons p rest ih =>
    obtain ⟨k₁, v₁⟩ := p
    by_cases h₂ : k₁ = k₂ <;> simp [dget_cons, h₂, ih]

/-- Looking up the updated key yields the new value. -/
theorem dget_dset_same (d : Dict) (k : String) (v : JVal) :
    dget (dset d k v) k = some v := by
  unfold dset
  by_cases h : containsKey d k
  · simp [h, dget_map_update]
  · have hnone : dget d k = none := (dget_none_iff_not_containsKey d k).mpr (by simpa using h)
    simp only [h, if_false, Bool.false_eq_true]
    induction d with
    | nil => simp [dget]
    | cons p rest ih =>
      obtain ⟨k₁, v₁⟩ := p
      by_cases h₂ : k₁ = k
      · simp [dget_cons, h₂] at hnone
      · simp only [containsKey_cons, Bool.or_eq_true, decide_eq_true_eq, not_or] at h
        simp only [dget_cons, if_neg h₂] at hnone
        simp [List.cons_append, dget_cons, h₂, ih (by simpa using h.2) hnone]

/-- Updating one key leaves the others unchanged. -/
theorem dget_dset_ne (d : Dict) (k k₂ : String) (v : JVal) (h : k₂ ≠ k) :
    dget (dset d k v) k₂ = dget d k₂ := by
  unfold dset
  by_cases hc : containsKey d k
  · simp [hc, dget_map_update_ne d k k₂ v h]
  · simp [hc, dget_append_single_ne d k k₂ v h]

/-!
Rational arithmetic, spelled out through `mkRat` on numerators and
denominators so that every operation evaluates inside the kernel (the
`Rat.add`/`Rat.mul`/`Rat.inv` of the library are `@[irreducible]`).  The
lemmas following the definitions identify each with the ordinary field
operation on `ℚ`. -/

def qAdd (a b : ℚ) : ℚ := mkRat (a.num * b.den + b.num * a.den) (a.den * b.den)

def qSub (a b : ℚ) : ℚ := mkRat (a.num * b.den - b.num * a.den) (a.den * b.den)

def qMul (a b : ℚ) : ℚ := mkRat (a.num * b.num) (a.den * b.den)

def qDiv (a b : ℚ) : ℚ :=
  if b.num < 0 then mkRat (-(a.num * b.den)) (a.den * b.num.natAbs)
  else mkRat (a.num * b.den) (a.den * b.num.natAbs)

def qNeg (a : ℚ) : ℚ := mkRat (-a.num) a.den

def qAbs (a : ℚ) : ℚ := if a < 0 then qNeg a else a

theorem qAdd_eq (a b : ℚ) : qAdd a b = a + b := by
  have ha : ((a.den : ℚ)) ≠ 0 := by
    exact_mod_cast a.den_nz
  have hb : ((b.den : ℚ)) ≠ 0 := by
    exact_mod_cast b.den_nz
  rw [qAdd, Rat.mkRat_eq_div]
  push_cast
  conv_rhs => rw [← Rat.num_div_den a, ← Rat.num_div_den b]
  field_simp

theorem qSub_eq (a b : ℚ) : qSub a b = a - b := by
  have ha : ((a.den : ℚ)) ≠ 0 := by
    exact_mod_cast a.den_nz
  have hb : ((b.den : ℚ)) ≠ 0 := by
    exact_mod_cast b.den_nz
  rw [qSub, Rat.mkRat_eq_div]
  push_cast
  conv_rhs => rw [← Rat.num_div_den a, ← Rat.num_div_den b]
  field_simp
  ring

theorem qMul_eq (a b : ℚ) : qMul a b = a * b := by
  have ha : ((a.den : ℚ)) ≠ 0 := by
    exact_mod_cast a.den_nz
  have hb : ((b.den : ℚ)) ≠ 0 := by
    exact_mod_cast b.den_nz
  rw [qMul, Rat.mkRat_eq_div]
  push_cast
  conv_rhs => rw [← Rat.num_div_den a, ← Rat.num_div_den b]
  field_simp

theorem qDiv_eq (a b : ℚ) : qDiv a b = a / b := by
  have ha : ((a.den : ℚ)) ≠ 0 := by
    exact_mod_cast a.den_nz
  have hbd : ((b.den : ℚ)) ≠ 0 := by
    exact_mod_cast b.den_nz
  rcases lt_trichotomy b.num 0 with hb | hb | hb
  · have hbq : ((b.num : ℚ)) < 0 := by
      exact_mod_cast hb
    have hnb : ((b.num.natAbs : ℚ)) = -((b.num : ℚ)) := by
      rw [Int.cast_natAbs, abs_of_neg hb]
      push_cast
      rfl
    have hbn : ((b.num : ℚ)) ≠ 0 := ne_of_lt hbq
    rw [qDiv, if_pos hb, Rat.mkRat_eq_div]
    push_cast [hnb]
    conv_rhs => rw [← Rat.num_div_den a, ← Rat.num_div_den b]
    field_simp
  · have hb0 : b = 0 := by
      rwa [← Rat.num_eq_zero]
    subst hb0
    simp [qDiv, Rat.mkRat_eq_div]
  · have hbq : (0 : ℚ) < ((b.num : ℚ)) := by
      exact_mod_cast hb
    have hnb : ((b.num.natAbs : ℚ)) = ((b.num : ℚ)) := by
      rw [Int.cast_natAbs, abs_of_pos hb]
    have hbn : ((b.num : ℚ)) ≠ 0 := (ne_of_lt hbq).symm
    rw [qDiv, if_neg (not_lt.mpr hb.le), Rat.mkRat_eq_div]
    push_cast [hnb]
    conv_rhs => rw [← Rat.num_div_den a, ← Rat.num_div_den b]
    field_simp

theorem qNeg_eq (a : ℚ) : qNeg a = -a := by
  rw [qNeg, Rat.mkRat_eq_div]
  push_cast
  rw [neg_div, Rat.num_div_den]

theorem qAbs_eq (a : ℚ) : qAbs a = |a| := by
  rw [qAbs]
  by_cases h : a < 0
  · rw [if_pos h, qNeg_eq, abs_of_neg h]
  · rw [if_neg h, abs_of_nonneg (not_lt.mp h)]

/-- Round a rational to the nearest integer, ties to even (Python `round`). -/
def roundHalfEven (x : ℚ) : ℤ :=
  let f : ℤ := Rat.floor x
  let r : ℚ := qSub x (mkRat f 1)
  if r < mkRat 1 2 then f
  else if mkRat 1 2 < r then f + 1
  else if f % 2 = 0 then f else f + 1

def pow10 (n : ℕ) : ℕ := Nat.pow 10 n

/-- Python `round(x, n)` on exact rationals. -/
def pyRound (x : ℚ) (n : ℕ) : ℚ :=
  mkRat (roundHalfEven (qMul x (mkRat (pow10 n) 1))) (pow10 n)

/-- Python truthiness of a value. -/
def truthy : JVal → Bool
  | .vnull => false
  | .vbool b => b
  | .vint n => n ≠ 0
  | .vfloat q => q ≠ 0
  | .vstr s => s ≠ ""
  | .vlist l => !l.isEmpty
  | .vdict d => !d.isEmpty

/-- The numeric value of a Python object in arithmetic or comparison context
(`bool` is an `int` subtype in Python).  Values with no numeric reading would
raise `TypeError` at the corresponding source sites; the pipeline only feeds
numbers into those positions. -/
def asNum : JVal → Option ℚ
  | .vbool b => some (if b then 1 else 0)
  | .vint n => some (mkRat n 1)
  | .vfloat q => some q
  | _ => none

/-! ## `normalize.py` — TierSetNormalizer and PriceAggregator -/

/-- Python `x == "s"` for an optional dict value: string equality, anything
else (including absence) compares unequal. -/
def isStrVal (v : Option JVal) (s : String) : Bool :=
  match v with
  | some (.vstr s₂) => s₂ = s
  | _ => false

/-- One tier of `validate_and_fix_tiers` (normalize.py lines 33-44): a tier
tagged `per_gb` carrying both `gb` and `total` with `gb > 0` gets
`price_per_gb` overwritten by `round(total / gb, 4)`; everything else passes
through unchanged.  (A present but non-numeric `gb` or `total` would raise
`TypeError` at the comparison/division in Python; the pipeline only ever
stores numbers there, and such tiers pass through here.) -/
def fixTier (tier : Dict) : Dict :=
  if isStrVal (dget tier "pricing_model") "per_gb" then
    match (dget tier "gb").bind asNum, (dget tier "total").bind asNum with
    | some g, some t =>
        if 0 < g then dset tier "price_per_gb" (.vfloat (pyRound (qDiv t g) 4)) else tier
    | _, _ => tier
  else tier

/-- `validate_and_fix_tiers` (normalize.py lines 19-46). -/
def validate_and_fix_tiers (tiers : List Dict) : List Dict := tiers.map fixTier

/-- The prices collected by `calculate_price_extremes` (normalize.py lines
63-67): the `price_per_gb` values of exactly the tiers tagged `per_gb` that
carry a `price_per_gb` key.  (A present non-numeric value would make Python's
`min`/`max` raise; the pipeline stores only numbers there.) -/
def perGbPrices (tiers : List Dict) : List ℚ :=
  tiers.filterMap fun t =>
    if isStrVal (dget t "pricing_model") "per_gb" && containsKey t "price_per_gb" then
      (dget t "price_per_gb").bind asNum
    else none

/-- `calculate_price_extremes` (normalize.py lines 49-72). -/
def calculate_price_extremes (tiers : List Dict) (useMin : Bool) : Option ℚ :=
  match perGbPrices tiers with
  | [] => none
  | p :: ps => some (if useMin then ps.foldl min p else ps.foldl max p)

/-- `any(t.get('pricing_model') == 'per_gb' for t in tiers)`. -/
def hasPerGb (tiers : List Dict) : Bool :=
  tiers.any fun t => isStrVal (dget t "pricing_model") "per_gb"

/-- `[t.get('pricing_model', 'unknown') for t in tiers]`. -/
def modelsOf (tiers : List Dict) : List JVal :=
  tiers.map fun t => (dget t "pricing_model").getD (.vstr "unknown")

/-- `models.count(x)`. -/
def countEq (models : List JVal) (x : JVal) : ℕ :=
  (models.filter (fun y => decide (y = x))).length

/-- Python `max(x :: xs, key=f)`: the first element attaining the maximal
key, scanning left to right. -/
def pyMaxBy (f : JVal → ℕ) (x : JVal) (xs : List JVal) : JVal :=
  xs.foldl (fun best y => if f best < f y then y else best) x

/-- `max(set(models), key=models.count) if models else 'unknown'`, with the
iteration order of the Python set supplied as `setOrder`. -/
def pickModel (setOrder : List JVal → List JVal) (models : List JVal) : JVal :=
  if models.isEmpty then .vstr "unknown"
  else
    match setOrder models with
    | [] => .vstr "unknown"
    | x :: xs => pyMaxBy (countEq models) x xs

/-- `record.get('tiers', [])` as a list of tier dicts.  A present non-list
value or non-dict entry would raise in Python before aggregation; the
pipeline always supplies a list of dicts. -/
def recTiers (record : Dict) : List Dict :=
  match dget record "tiers" with
  | some (.vlist l) => l.map fun v => match v with | .vdict d => d | _ => []
  | _ => []

def optQ : Option ℚ → JVal
  | none => .vnull
  | some q => .vfloat q

/-- The dict literal returned by `normalize_pricing_record` for an empty tier
sequence (normalize.py lines 87-94). -/
def normEmptyOut (record : Dict) : Dict :=
  dset (dset (dset (dset (dset record
    "min_price_per_gb" .vnull)
    "max_price_per_gb" .vnull)
    "pricing_model" (.vstr "unknown"))
    "comparable" (.vbool false))
    "tier_count" (.vint 0)

/-- The dict literal returned by `normalize_pricing_record` for a non-empty
tier sequence (normalize.py lines 113-121). -/
def normFullOut (setOrder : List JVal → List JVal) (record : Dict) (tiers : List Dict) :
    Dict :=
  dset (dset (dset (dset (dset (dset record
    "tiers" (.vlist (tiers.map JVal.vdict)))
    "min_price_per_gb"
      (optQ (if hasPerGb tiers then calculate_price_extremes tiers true else none)))
    "max_price_per_gb"
      (optQ (if hasPerGb tiers then calculate_price_extremes tiers false else none)))
    "pricing_model"
      (if hasPerGb tiers then JVal.vstr "per_gb" else pickModel setOrder (modelsOf tiers)))
    "comparable" (.vbool (hasPerGb tiers)))
    "tier_count" (.vint tiers.length)

/-- `normalize_pricing_record` (normalize.py lines 75-121), parametrised by
the iteration order of Python's `set()` used in the model-frequency
tie-break. -/
def normalize_pricing_record (setOrder : List JVal → List JVal) (record : Dict) : Dict :=
  let tiers := validate_and_fix_tiers (recTiers record)
  if tiers.isEmpty then normEmptyOut record
  else normFullOut setOrder record tiers

/-- What Python guarantees about iterating `set(models)`: an enumeration of
the distinct elements in an unspecified, hash-dependent order. -/
def SetOrderSpec (setOrder : List JVal → List JVal) : Prop :=
  ∀ l : List JVal, (setOrder l).Nodup ∧ ∀ x : JVal, x ∈ setOrder l ↔ x ∈ l

/-- First-occurrence deduplication (one possible set iteration order). -/
def firstOccsAux : List JVal → List JVal → List JVal
  | [], _ => []
  | x :: xs, seen =>
      if x ∈ seen then firstOccsAux xs seen else x :: firstOccsAux xs (x :: seen)

def firstOccs (l : List JVal) : List JVal := firstOccsAux l []

/-- First-occurrence deduplication, reversed (another possible order). -/
def revFirstOccs (l : List JVal) : List JVal := (firstOccs l).reverse

theorem firstOccsAux_mem (l : List JVal) :
    ∀ seen x, x ∈ firstOccsAux l seen ↔ (x ∈ l ∧ x ∉ seen) := by
  induction l with
  | nil => intro seen x; simp [firstOccsAux]
  | cons y ys ih =>
    intro seen x
    by_cases hy : y ∈ seen
    · simp only [firstOccsAux, if_pos hy, ih]
      constructor
      · rintro ⟨h₁, h₂⟩; exact ⟨List.mem_cons_of_mem _ h₁, h₂⟩
      · rintro ⟨h₁, h₂⟩
        rcases List.mem_cons.mp h₁ with h | h
        · exact absurd (h ▸ hy) h₂
        · exact ⟨h, h₂⟩
    · simp only [firstOccsAux, if_neg hy, List.mem_cons, ih]
      constructor
      · rintro (h | ⟨h₁, h₂⟩)
        · exact ⟨Or.inl h, h ▸ hy⟩
        · exact ⟨Or.inr h₁, fun hx => h₂ (Or.inr hx)⟩
      · rintro ⟨h | h, h₂⟩
        · exact Or.inl h
        · by_cases hxy : x = y
          · exact Or.inl hxy
          · exact Or.inr ⟨h, by simp [hxy, h₂]⟩

theorem firstOccsAux_nodup (l : List JVal) :
    ∀ seen, (firstOccsAux l seen).Nodup := by
  induction l with
  | nil => intro seen; simp [firstOccsAux]
  | cons y ys ih =>
    intro seen
    by_cases hy : y ∈ seen
    · simpa [firstOccsAux, hy] using ih seen
    · simp only [firstOccsAux, if_neg hy, List.nodup_cons]
      refine ⟨fun hmem => ?_, ih _⟩
      have := (firstOccsAux_mem ys (y :: seen) y).mp hmem
      exact this.2 (List.mem_cons_self _ _)

theorem setOrderSpec_firstOccs : SetOrderSpec firstOccs := by
  intro l
  refine ⟨firstOccsAux_nodup l [], fun x => ?_⟩
  simpa using firstOccsAux_mem l [] x

theorem setOrderSpec_revFirstOccs : SetOrderSpec revFirstOccs := by
  intro l
  refine ⟨List.nodup_reverse.mpr (firstOccsAux_nodup l []), fun x => ?_⟩
  simpa [revFirstOccs] using firstOccsAux_mem l [] x

theorem pyMaxBy_mem (f : JVal → ℕ) (xs : List JVal) :
    ∀ x, pyMaxBy f x xs ∈ x :: xs := by
  induction xs with
  | nil => intro x; simp [pyMaxBy]
  | cons y ys ih =>
    intro x
    have h := ih (if f x < f y then y else x)
    have hstep : pyMaxBy f x (y :: ys) = pyMaxBy f (if f x < f y then y else x) ys := by
      simp [pyMaxBy]
    rw [hstep]
    rcases List.mem_cons.mp h with h₁ | h₁
    · rw [h₁]
      by_cases hc : f x < f y
      · simp [hc]
      · simp [hc]
    · simp [h₁]

theorem pyMaxBy_ge (f : JVal → ℕ) (xs : List JVal) :
    ∀ x, ∀ y ∈ x :: xs, f y ≤ f (pyMaxBy f x xs) := by
  induction xs with
  | nil =>
    intro x y hy
    rcases List.mem_cons.mp hy with h | h
    · rw [h]; simp [pyMaxBy]
    · simp at h
  | cons z zs ih =>
    intro x y hy
    have hmax : pyMaxBy f x (z :: zs) = pyMaxBy f (if f x < f z then z else x) zs := by
      simp [pyMaxBy]
    have hx : f x ≤ f (if f x < f z then z else x) := by
      by_cases hc : f x < f z
      · rw [if_pos hc]; exact Nat.le_of_lt hc
      · rw [if_neg hc]
    have hz : f z ≤ f (if f x < f z then z else x) := by
      by_cases hc : f x < f z
      · rw [if_pos hc]
      · rw [if_neg hc]; exact Nat.le_of_not_lt hc
    have tail := ih (if f x < f z then z else x)
    rw [hmax]
    rcases List.mem_cons.mp hy with h | h
    · rw [h]
      exact le_trans hx (tail _ (List.mem_cons_self _ _))
    · rcases List.mem_cons.mp h with h₁ | h₁
      · rw [h₁]
        exact le_trans hz (tail _ (List.mem_cons_self _ _))
      · exact tail y (List.mem_cons_of_mem _ h₁)

theorem foldl_min_mem (ps : List ℚ) : ∀ p : ℚ, ps.foldl min p ∈ p :: ps := by
  induction ps with
  | nil => intro p; simp
  | cons q qs ih =>
    intro p
    have h := ih (min p q)
    simp only [List.foldl_cons]
    rcases List.mem_cons.mp h with h₁ | h₁
    · rw [h₁]
      rcases min_choice p q with hc | hc
      · rw [hc]; exact List.mem_cons_self _ _
      · rw [hc]; exact List.mem_cons_of_mem _ (List.mem_cons_self _ _)
    · exact List.mem_cons_of_mem _ (List.mem_cons_of_mem _ h₁)

theorem foldl_max_mem (ps : List ℚ) : ∀ p : ℚ, ps.foldl max p ∈ p :: ps := by
  induction ps with
  | nil => intro p; simp
  | cons q qs ih =>
    intro p
    have h := ih (max p q)
    simp only [List.foldl_cons]
    rcases List.mem_cons.mp h with h₁ | h₁
    · rw [h₁]
      rcases max_choice p q with hc | hc
      · rw [hc]; exact List.mem_cons_self _ _
      · rw [hc]; exact List.mem_cons_of_mem _ (List.mem_cons_self _ _)
    · exact List.mem_cons_of_mem _ (List.mem_cons_of_mem _ h₁)

theorem foldl_min_le (ps : List ℚ) : ∀ p : ℚ, ∀ q ∈ p :: ps, ps.foldl min p ≤ q := by
  induction ps with
  | nil =>
    intro p q hq
    rcases List.mem_cons.mp hq with h | h
    · simp [h]
    · simp at h
  | cons r rs ih =>
    intro p q hq
    simp only [List.foldl_cons]
    have tail := ih (min p r)
    rcases List.mem_cons.mp hq with h | h
    · calc rs.foldl min (min p r) ≤ min p r := tail _ (List.mem_cons_self _ _)
        _ ≤ p := min_le_left _ _
        _ = q := h.symm
    · rcases List.mem_cons.mp h with h₁ | h₁
      · calc rs.foldl min (min p r) ≤ min p r := tail _ (List.mem_cons_self _ _)
          _ ≤ r := min_le_right _ _
          _ = q := h₁.symm
      · exact tail q (List.mem_cons_of_mem _ h₁)

theorem foldl_max_ge (ps : List ℚ) : ∀ p : ℚ, ∀ q ∈ p :: ps, q ≤ ps.foldl max p := by
  induction ps with
  | nil =>
    intro p q hq
    rcases List.mem_cons.mp hq with h | h
    · simp [h]
    · simp at h
  | cons r rs ih =>
    intro p q hq
    simp only [List.foldl_cons]
    have tail := ih (max p r)
    rcases List.mem_cons.mp hq with h | h
    · rw [h]
      exact le_trans (le_max_left p r) (tail _ (List.mem_cons_self _ _))
    · rcases List.mem_cons.mp h with h₁ | h₁
      · rw [h₁]
        exact le_trans (le_max_right p r) (tail _ (List.mem_cons_self _ _))
      · exact tail q (List.mem_cons_of_mem _ h₁)

theorem isStrVal_iff (v : Option JVal) (s : String) :
    isStrVal v s = true ↔ v = some (.vstr s) := by
  cases v with
  | none => simp [isStrVal]
  | some x => cases x <;> simp [isStrVal]

theorem fixTier_dget_ne (t : Dict) (k : String) (hk : k ≠ "price_per_gb") :
    dget (fixTier t) k = dget t k := by
  unfold fixTier
  repeat' split
  all_goals first | exact dget_dset_ne _ _ _ _ hk | rfl

theorem fixTier_pm (t : Dict) :
    dget (fixTier t) "pricing_model" = dget t "pricing_model" :=
  fixTier_dget_ne t _ (by decide)

theorem hasPerGb_fix (tiers : List Dict) :
    hasPerGb (validate_and_fix_tiers tiers) = hasPerGb tiers := by
  induction tiers with
  | nil => rfl
  | cons t ts ih =>
    simp only [hasPerGb, validate_and_fix_tiers, List.map_cons, List.any_cons] at ih ⊢
    rw [fixTier_pm, ih]

theorem modelsOf_fix (tiers : List Dict) :
    modelsOf (validate_and_fix_tiers tiers) = modelsOf tiers := by
  induction tiers with
  | nil => rfl
  | cons t ts ih =>
    simp only [modelsOf, validate_and_fix_tiers, List.map_cons] at ih ⊢
    rw [fixTier_pm, ih]

theorem fix_isEmpty (tiers : List Dict) :
    (validate_and_fix_tiers tiers).isEmpty = tiers.isEmpty := by
  cases tiers <;> rfl

theorem hasPerGb_iff (ts : List Dict) :
    hasPerGb ts = true ↔ ∃ t ∈ ts, dget t "pricing_model" = some (.vstr "per_gb") := by
  simp only [hasPerGb, List.any_eq_true, isStrVal_iff]

theorem perGbPrices_ne_imp_hasPerGb (ts : List Dict) :
    perGbPrices ts ≠ [] → hasPerGb ts = true := by
  induction ts with
  | nil => intro h; exact absurd rfl h
  | cons t ts ih =>
    intro h
    simp only [hasPerGb, List.any_cons, Bool.or_eq_true]
    by_cases hc : (isStrVal (dget t "pricing_model") "per_gb" &&
        containsKey t "price_per_gb") = true
    · exact Or.inl (Bool.and_elim_left hc)
    · right
      rw [← hasPerGb]
      apply ih
      intro hnil
      apply h
      simp only [perGbPrices, List.filterMap_cons, if_neg hc]
      exact hnil

theorem recTiers_eq (record : Dict) (tiers : List Dict)
    (h : dget record "tiers" = some (.vlist (tiers.map JVal.vdict))) :
    recTiers record = tiers := by
  have hmap : ∀ l : List Dict,
      (l.map JVal.vdict).map
        (fun v => match v with | JVal.vdict d => d | _ => ([] : Dict)) = l := by
    intro l
    induction l with
    | nil => rfl
    | cons d ds ih => simpa using ih
  unfold recTiers
  rw [h]
  exact hmap tiers

theorem norm_eq_empty (so : List JVal → List JVal) (record : Dict)
    (he : (validate_and_fix_tiers (recTiers record)).isEmpty = true) :
    normalize_pricing_record so record = normEmptyOut record := by
  simp only [normalize_pricing_record, he, if_true]

theorem norm_eq_full (so : List JVal → List JVal) (record : Dict)
    (he : (validate_and_fix_tiers (recTiers record)).isEmpty = false) :
    normalize_pricing_record so record =
      normFullOut so record (validate_and_fix_tiers (recTiers record)) := by
  simp only [normalize_pricing_record, he, Bool.false_eq_true, if_false]

theorem normEmptyOut_comparable (record : Dict) :
    dget (normEmptyOut record) "comparable" = some (.vbool false) := by
  unfold normEmptyOut
  rw [dget_dset_ne _ _ _ _ (by decide), dget_dset_same]

theorem normEmptyOut_pm (record : Dict) :
    dget (normEmptyOut record) "pricing_model" = some (.vstr "unknown") := by
  unfold normEmptyOut
  rw [dget_dset_ne _ _ _ _ (by decide), dget_dset_ne _ _ _ _ (by decide), dget_dset_same]

theorem normEmptyOut_min (record : Dict) :
    dget (normEmptyOut record) "min_price_per_gb" = some .vnull := by
  unfold normEmptyOut
  rw [dget_dset_ne _ _ _ _ (by decide), dget_dset_ne _ _ _ _ (by decide),
    dget_dset_ne _ _ _ _ (by decide), dget_dset_ne _ _ _ _ (by decide), dget_dset_same]

theorem normFullOut_comparable (so : List JVal → List JVal) (record : Dict)
    (tiers : List Dict) :
    dget (normFullOut so record tiers) "comparable" = some (.vbool (hasPerGb tiers)) := by
  unfold normFullOut
  rw [dget_dset_ne _ _ _ _ (by decide), dget_dset_same]

theorem normFullOut_pm (so : List JVal → List JVal) (record : Dict) (tiers : List Dict) :
    dget (normFullOut so record tiers) "pricing_model" =
      some (if hasPerGb tiers then JVal.vstr "per_gb"
        else pickModel so (modelsOf tiers)) := by
  unfold normFullOut
  rw [dget_dset_ne _ _ _ _ (by decide), dget_dset_ne _ _ _ _ (by decide), dget_dset_same]

theorem normFullOut_min (so : List JVal → List JVal) (record : Dict) (tiers : List Dict) :
    dget (normFullOut so record tiers) "min_price_per_gb" =
      some (optQ (if hasPerGb tiers then calculate_price_extremes tiers true else none)) := by
  unfold normFullOut
  rw [dget_dset_ne _ _ _ _ (by decide), dget_dset_ne _ _ _ _ (by decide),
    dget_dset_ne _ _ _ _ (by decide), dget_dset_ne _ _ _ _ (by decide), dget_dset_same]

theorem normFullOut_max (so : List JVal → List JVal) (record : Dict) (tiers : List Dict) :
    dget (normFullOut so record tiers) "max_price_per_gb" =
      some (optQ (if hasPerGb tiers then calculate_price_extremes tiers false else none)) := by
  unfold normFullOut
  rw [dget_dset_ne _ _ _ _ (by decide), dget_dset_ne _ _ _ _ (by decide),
    dget_dset_ne _ _ _ _ (by decide), dget_dset_same]

theorem normFullOut_tiers (so : List JVal → List JVal) (record : Dict) (tiers : List Dict) :
    dget (normFullOut so record tiers) "tiers" =
      some (.vlist (tiers.map JVal.vdict)) := by
  unfold normFullOut
  rw [dget_dset_ne _ _ _ _ (by decide), dget_dset_ne _ _ _ _ (by decide),
    dget_dset_ne _ _ _ _ (by decide), dget_dset_ne _ _ _ _ (by decide),
    dget_dset_ne _ _ _ _ (by decide), dget_dset_same]

/-! ## Claims C1-C4 -/

/-- Input for the C1 counterexample: one tier tagged `per_gb` with no
`price_per_gb` at all. -/
def c1Record : Dict := [("tiers", .vlist [.vdict [("pricing_model", .vstr "per_gb")]])]

/-- C1, as stated, is false: a record whose only tier is tagged `per_gb` but
carries no numeric `price_per_gb` still gets `comparable = true` —
`normalize_pricing_record` checks only for the tag, not for a price. -/
theorem c1_counterexample :
    dget (normalize_pricing_record firstOccs c1Record) "comparable" = some (.vbool true) ∧
    perGbPrices (validate_and_fix_tiers (recTiers c1Record)) = [] ∧
    dget (normalize_pricing_record firstOccs c1Record) "min_price_per_gb" =
      some JVal.vnull := by
  refine ⟨by decide, by decide, by decide⟩

/-- C1 (amended): `comparable = true` iff at least one tier is tagged
`per_gb` (whether or not it carries a numeric unit price); and whenever both
`min_price_per_gb` and `max_price_per_gb` are numeric,
`min_price_per_gb <= max_price_per_gb`. -/
theorem c1_amended (so : List JVal → List JVal) (record : Dict) (tiers : List Dict)
    (h : dget record "tiers" = some (.vlist (tiers.map JVal.vdict))) :
    (dget (normalize_pricing_record so record) "comparable" = some (.vbool true) ↔
      ∃ t ∈ tiers, dget t "pricing_model" = some (.vstr "per_gb")) ∧
    (∀ mn mx : ℚ,
      dget (normalize_pricing_record so record) "min_price_per_gb" = some (.vfloat mn) →
      dget (normalize_pricing_record so record) "max_price_per_gb" = some (.vfloat mx) →
      mn ≤ mx) := by
  have hrt : recTiers record = tiers := recTiers_eq record tiers h
  by_cases he : (validate_and_fix_tiers (recTiers record)).isEmpty = true
  · have htnil : tiers = [] := by
      rw [hrt, fix_isEmpty] at he
      exact List.isEmpty_iff.mp he
    rw [norm_eq_empty so record he]
    subst htnil
    constructor
    · rw [normEmptyOut_comparable]
      simp
    · intro mn mx hmn hmx
      rw [normEmptyOut_min] at hmn
      simp at hmn
  · have he₂ : (validate_and_fix_tiers (recTiers record)).isEmpty = false :=
      Bool.eq_false_iff.mpr he
    rw [norm_eq_full so record he₂]
    constructor
    · rw [normFullOut_comparable, hrt, hasPerGb_fix]
      simp only [Option.some_inj, JVal.vbool.injEq]
      exact hasPerGb_iff tiers
    · intro mn mx hmn hmx
      rw [normFullOut_min] at hmn
      rw [normFullOut_max] at hmx
      by_cases hg : hasPerGb (validate_and_fix_tiers (recTiers record)) = true
      · rw [if_pos hg] at hmn hmx
        cases hp : perGbPrices (validate_and_fix_tiers (recTiers record)) with
        | nil =>
          simp only [calculate_price_extremes, hp] at hmn
          simp [optQ] at hmn
        | cons p ps =>
          simp only [calculate_price_extremes, hp, if_true] at hmn hmx
          simp only [optQ, Option.some_inj, JVal.vfloat.injEq] at hmn hmx
          have h₁ : ps.foldl min p ≤ p := foldl_min_le ps p p (List.mem_cons_self _ _)
          have h₂ : p ≤ ps.foldl max p := foldl_max_ge ps p p (List.mem_cons_self _ _)
          rw [← hmn, ← hmx]
          exact le_trans h₁ h₂
      · rw [if_neg hg] at hmn
        simp [optQ] at hmn

/-- A closed instance of `c1_amended`: a record with one priced `per_gb` tier
and one `per_ip` tier. -/
def c1WitRecord : Dict :=
  [("tiers", .vlist
    [.vdict [("pricing_model", .vstr "per_gb"), ("price_per_gb", .vfloat 5)],
     .vdict [("pricing_model", .vstr "per_ip"), ("price_per_ip", .vfloat 2)]])]

/-- Witness for C1 (amended) at `c1WitRecord`. -/
theorem c1_amended_witness :
    (dget c1WitRecord "tiers" = some (.vlist
      ([[("pricing_model", JVal.vstr "per_gb"), ("price_per_gb", JVal.vfloat 5)],
        [("pricing_model", JVal.vstr "per_ip"), ("price_per_ip", JVal.vfloat 2)]].map
        JVal.vdict))) ∧
    ((dget (normalize_pricing_record firstOccs c1WitRecord) "comparable" =
        some (.vbool true) ↔
      ∃ t ∈ [[("pricing_model", JVal.vstr "per_gb"), ("price_per_gb", JVal.vfloat 5)],
        [("pricing_model", JVal.vstr "per_ip"), ("price_per_ip", JVal.vfloat 2)]],
        dget t "pricing_model" = some (.vstr "per_gb")) ∧
    (∀ mn mx : ℚ,
      dget (normalize_pricing_record firstOccs c1WitRecord) "min_price_per_gb" =
        some (.vfloat mn) →
      dget (normalize_pricing_record firstOccs c1WitRecord) "max_price_per_gb" =
        some (.vfloat mx) →
      mn ≤ mx)) :=
  ⟨rfl, c1_amended firstOccs c1WitRecord _ rfl⟩

/-- Input for the C2 counterexample: two tiers with distinct non-`per_gb`
tags, a frequency tie. -/
def c2Record : Dict :=
  [("tiers", .vlist [.vdict [("pricing_model", .vstr "per_ip")],
                     .vdict [("pricing_model", .vstr "per_proxy")]])]

/-- The tie-break the claim describes, modelled from the spec's words: most
frequent tag, frequency ties broken by first-occurrence order. -/
def firstSeenMostFrequent (models : List JVal) : JVal :=
  match firstOccs models with
  | [] => .vstr "unknown"
  | x :: xs => pyMaxBy (countEq models) x xs

/-- C2, as stated, is false: the code draws the tied tag from `max` over a
Python `set`, whose iteration order is hash-dependent; under the lawful set
order `revFirstOccs` the record `[per_ip, per_proxy]` is classified
`per_proxy`, not the first-seen `per_ip`. -/
theorem c2_counterexample :
    SetOrderSpec revFirstOccs ∧
    dget (normalize_pricing_record revFirstOccs c2Record) "pricing_model" =
      some (.vstr "per_proxy") ∧
    firstSeenMostFrequent (modelsOf (validate_and_fix_tiers (recTiers c2Record))) =
      .vstr "per_ip" ∧
    JVal.vstr "per_proxy" ≠ JVal.vstr "per_ip" :=
  ⟨setOrderSpec_revFirstOccs, by decide, by decide, by decide⟩

/-- C2 (amended): for an empty tier sequence `pricing_model` is `"unknown"`;
for a non-empty sequence with no `per_gb` tier, `pricing_model` is a tag of
maximal frequency among the tiers' tags — which of the tied tags is chosen
depends on the hash-set iteration order and is not specified. -/
theorem c2_amended (so : List JVal → List JVal) (hso : SetOrderSpec so)
    (record : Dict) (tiers : List Dict)
    (h : dget record "tiers" = some (.vlist (tiers.map JVal.vdict))) :
    (tiers = [] →
      dget (normalize_pricing_record so record) "pricing_model" =
        some (.vstr "unknown")) ∧
    (tiers ≠ [] → hasPerGb tiers = false →
      ∃ m : JVal,
        dget (normalize_pricing_record so record) "pricing_model" = some m ∧
        m ∈ modelsOf tiers ∧
        ∀ m₂ ∈ modelsOf tiers,
          countEq (modelsOf tiers) m₂ ≤ countEq (modelsOf tiers) m) := by
  have hrt : recTiers record = tiers := recTiers_eq record tiers h
  constructor
  · intro htnil
    have he : (validate_and_fix_tiers (recTiers record)).isEmpty = true := by
      rw [hrt, htnil]; rfl
    rw [norm_eq_empty so record he, normEmptyOut_pm]
  · intro hne hng
    have he₂ : (validate_and_fix_tiers (recTiers record)).isEmpty = false := by
      rw [hrt]
      cases hft : tiers with
      | nil => exact absurd hft hne
      | cons a l => rfl
    rw [norm_eq_full so record he₂, normFullOut_pm, hrt, hasPerGb_fix, modelsOf_fix]
    rw [if_neg (by rw [hng]; exact Bool.false_ne_true)]
    have hmne : (modelsOf tiers).isEmpty = false := by
      cases tiers with
      | nil => exact absurd rfl hne
      | cons t ts => rfl
    unfold pickModel
    rw [if_neg (by rw [hmne]; exact Bool.false_ne_true)]
    have hmodels_ne : modelsOf tiers ≠ [] := by
      intro hx
      rw [hx] at hmne
      exact Bool.true_eq_false ▸ (by simp at hmne)
    cases hso₂ : so (modelsOf tiers) with
    | nil =>
      obtain ⟨x, hx⟩ := List.exists_mem_of_ne_nil _ hmodels_ne
      have hmem := ((hso (modelsOf tiers)).2 x).mpr hx
      rw [hso₂] at hmem
      simp at hmem
    | cons x xs =>
      refine ⟨pyMaxBy (countEq (modelsOf tiers)) x xs, rfl, ?_, ?_⟩
      · have hmem := pyMaxBy_mem (countEq (modelsOf tiers)) xs x
        have hmem₂ : pyMaxBy (countEq (modelsOf tiers)) x xs ∈ so (modelsOf tiers) := by
          rw [hso₂]; exact hmem
        exact ((hso (modelsOf tiers)).2 _).mp hmem₂
      · intro m₂ hm₂
        have hm₃ : m₂ ∈ so (modelsOf tiers) := ((hso (modelsOf tiers)).2 m₂).mpr hm₂
        rw [hso₂] at hm₃
        exact pyMaxBy_ge (countEq (modelsOf tiers)) xs x m₂ hm₃

/-- Tiers for the C2 witness: a `per_ip` tier and a `per_proxy` tier. -/
def c2WitTiers : List Dict :=
  [[("pricing_model", JVal.vstr "per_ip")], [("pricing_model", JVal.vstr "per_proxy")]]

def c2WitRecord : Dict := [("tiers", .vlist (c2WitTiers.map JVal.vdict))]

/-- Witness for C2 (amended) at `c2WitRecord` with the `firstOccs` order. -/
theorem c2_amended_witness :
    SetOrderSpec firstOccs ∧
    dget c2WitRecord "tiers" = some (.vlist (c2WitTiers.map JVal.vdict)) ∧
    ((c2WitTiers = [] →
      dget (normalize_pricing_record firstOccs c2WitRecord) "pricing_model" =
        some (.vstr "unknown")) ∧
    (c2WitTiers ≠ [] → hasPerGb c2WitTiers = false →
      ∃ m : JVal,
        dget (normalize_pricing_record firstOccs c2WitRecord) "pricing_model" = some m ∧
        m ∈ modelsOf c2WitTiers ∧
        ∀ m₂ ∈ modelsOf c2WitTiers,
          countEq (modelsOf c2WitTiers) m₂ ≤ countEq (modelsOf c2WitTiers) m)) :=
  ⟨setOrderSpec_firstOccs, rfl,
    c2_amended firstOccs setOrderSpec_firstOccs c2WitRecord c2WitTiers rfl⟩

/-- C3: with at least one `per_gb` tier carrying a numeric unit price, the
aggregates are the min/max over exactly the `per_gb`-tagged prices of the
repaired tier sequence, `pricing_model` is `"per_gb"` and `comparable` is
true; the output record carries the repaired tiers. -/
theorem c3 (so : List JVal → List JVal) (record : Dict) (tiers : List Dict)
    (h : dget record "tiers" = some (.vlist (tiers.map JVal.vdict)))
    (hp : perGbPrices (validate_and_fix_tiers tiers) ≠ []) :
    dget (normalize_pricing_record so record) "pricing_model" = some (.vstr "per_gb") ∧
    dget (normalize_pricing_record so record) "comparable" = some (.vbool true) ∧
    dget (normalize_pricing_record so record) "tiers" =
      some (.vlist ((validate_and_fix_tiers tiers).map JVal.vdict)) ∧
    ∃ mn mx : ℚ,
      dget (normalize_pricing_record so record) "min_price_per_gb" =
        some (.vfloat mn) ∧
      dget (normalize_pricing_record so record) "max_price_per_gb" =
        some (.vfloat mx) ∧
      mn ∈ perGbPrices (validate_and_fix_tiers tiers) ∧
      mx ∈ perGbPrices (validate_and_fix_tiers tiers) ∧
      ∀ p ∈ perGbPrices (validate_and_fix_tiers tiers), mn ≤ p ∧ p ≤ mx := by
  have hrt : recTiers record = tiers := recTiers_eq record tiers h
  have hg : hasPerGb (validate_and_fix_tiers tiers) = true :=
    perGbPrices_ne_imp_hasPerGb _ hp
  have hfne : validate_and_fix_tiers tiers ≠ [] := by
    intro hnil
    rw [hnil] at hp
    exact hp rfl
  have hne : (validate_and_fix_tiers (recTiers record)).isEmpty = false := by
    rw [hrt]
    cases hft : validate_and_fix_tiers tiers with
    | nil => exact absurd hft hfne
    | cons a l => rfl
  rw [norm_eq_full so record hne]
  refine ⟨?_, ?_, ?_, ?_⟩
  · rw [normFullOut_pm, hrt, if_pos hg]
  · rw [normFullOut_comparable, hrt, hg]
  · rw [normFullOut_tiers, hrt]
  · rw [normFullOut_min, normFullOut_max, hrt, if_pos hg]
    cases hpp : perGbPrices (validate_and_fix_tiers tiers) with
    | nil => exact absurd hpp hp
    | cons p ps =>
      refine ⟨ps.foldl min p, ps.foldl max p, ?_, ?_, ?_, ?_, ?_⟩
      · simp [calculate_price_extremes, hpp, optQ, hg]
      · simp [calculate_price_extremes, hpp, optQ, hg]
      · exact foldl_min_mem ps p
      · exact foldl_max_mem ps p
      · intro q hq
        exact ⟨foldl_min_le ps p q hq, foldl_max_ge ps p q hq⟩

/-- Tiers for the C3 witness (the spec's own aggregation example). -/
def c3WitTiers : List Dict :=
  [[("pricing_model", JVal.vstr "per_gb"), ("price_per_gb", JVal.vfloat 5)],
   [("pricing_model", JVal.vstr "per_ip"), ("price_per_ip", JVal.vfloat 2)],
   [("pricing_model", JVal.vstr "per_gb"), ("price_per_gb", JVal.vfloat 3)]]

def c3WitRecord : Dict := [("tiers", .vlist (c3WitTiers.map JVal.vdict))]

/-- Witness for C3 at `c3WitRecord`. -/
theorem c3_witness :
    perGbPrices (validate_and_fix_tiers c3WitTiers) ≠ [] ∧
    (dget (normalize_pricing_record firstOccs c3WitRecord) "pricing_model" =
        some (.vstr "per_gb") ∧
    dget (normalize_pricing_record firstOccs c3WitRecord) "comparable" =
        some (.vbool true) ∧
    dget (normalize_pricing_record firstOccs c3WitRecord) "tiers" =
      some (.vlist ((validate_and_fix_tiers c3WitTiers).map JVal.vdict)) ∧
    ∃ mn mx : ℚ,
      dget (normalize_pricing_record firstOccs c3WitRecord) "min_price_per_gb" =
        some (.vfloat mn) ∧
      dget (normalize_pricing_record firstOccs c3WitRecord) "max_price_per_gb" =
        some (.vfloat mx) ∧
      mn ∈ perGbPrices (validate_and_fix_tiers c3WitTiers) ∧
      mx ∈ perGbPrices (validate_and_fix_tiers c3WitTiers) ∧
      ∀ p ∈ perGbPrices (validate_and_fix_tiers c3WitTiers), mn ≤ p ∧ p ≤ mx) :=
  ⟨by decide, c3 firstOccs c3WitRecord c3WitTiers rfl (by decide)⟩

/-- C4: `validate_and_fix_tiers` keeps length and order; a `per_gb` tier with
numeric `gb > 0` and a `total` gets `price_per_gb := round(total/gb, 4)`;
tiers missing the tag or either field, or with `gb = 0`, pass unchanged; no
key other than `price_per_gb` is ever modified; the stage is total. -/
theorem c4 (tiers : List Dict) :
    (validate_and_fix_tiers tiers).length = tiers.length ∧
    (∀ i : ℕ, (validate_and_fix_tiers tiers)[i]? = (tiers[i]?).map fixTier) ∧
    (∀ t : Dict,
      (∀ k : String, k ≠ "price_per_gb" → dget (fixTier t) k = dget t k) ∧
      (∀ g tv : ℚ, dget t "pricing_model" = some (.vstr "per_gb") →
        (dget t "gb").bind asNum = some g → (dget t "total").bind asNum = some tv →
        0 < g →
        dget (fixTier t) "price_per_gb" = some (.vfloat (pyRound (qDiv tv g) 4))) ∧
      ((dget t "pricing_model" ≠ some (.vstr "per_gb") ∨ dget t "gb" = none ∨
        dget t "total" = none ∨ (dget t "gb").bind asNum = some 0) → fixTier t = t)) := by
  refine ⟨by simp [validate_and_fix_tiers],
    fun i => by simp [validate_and_fix_tiers],
    fun t => ⟨fun k hk => fixTier_dget_ne t k hk, ?_, ?_⟩⟩
  · intro g tv hpm hg htot hpos
    unfold fixTier
    rw [if_pos ((isStrVal_iff _ _).mpr hpm)]
    simp only [hg, htot]
    rw [if_pos hpos, dget_dset_same]
  · intro hcond
    unfold fixTier
    by_cases hpm : isStrVal (dget t "pricing_model") "per_gb" = true
    · rw [if_pos hpm]
      rcases hcond with hc | hc | hc | hc
      · exact absurd ((isStrVal_iff _ _).mp hpm) hc
      · simp only [hc, Option.none_bind]
      · simp only [hc, Option.none_bind]
        cases (dget t "gb").bind asNum <;> rfl
      · simp only [hc]
        cases (dget t "total").bind asNum with
        | none => rfl
        | some tv => simp
    · rw [if_neg hpm]

/-- Tier for the C4 witness (the spec's consistency-repair example). -/
def c4WitTier : Dict :=
  [("pricing_model", JVal.vstr "per_gb"), ("gb", JVal.vfloat 10), ("total", JVal.vfloat 45)]

/-- Witness for C4 at `c4WitTier`: the unit price is repaired to
`round(45/10, 4)`. -/
theorem c4_witness :
    dget (fixTier c4WitTier) "price_per_gb" = some (.vfloat (pyRound (qDiv 45 10) 4)) :=
  ((c4 [c4WitTier]).2.2 c4WitTier).2.1 10 45 rfl rfl rfl (by norm_num)

/-! ## A small backtracking regex engine

Python `re` semantics for the pattern fragment used by
`parse_csv.py`: character classes, sequencing, prioritised alternation,
greedy and lazy repetition, capture groups; alternatives are explored in
preference order and the first success wins. -/

/-- Regular expressions over characters. -/
inductive RE where
  | eps
  | cls (p : Char → Bool)
  | seq (a b : RE)
  | alt (a b : RE)
  | star (greedy : Bool) (r : RE)
  | grp (n : ℕ) (r : RE)

/-- Captured groups: group number paired with the consumed characters. -/
abbrev Caps := List (ℕ × List Char)

/-- One level of the backtracking matcher, in continuation-passing style:
structural recursion over the regex, with star unfoldings delegated to
`next` (the engine one fuel level down).  Alternatives are explored in
preference order and the first success wins, as in Python `re`. -/
def reMAux (next : RE → List Char → Caps → (List Char → Caps → Option Caps) → Option Caps) :
    RE → List Char → Caps → (List Char → Caps → Option Caps) → Option Caps
  | .eps, s, caps, k => k s caps
  | .cls p, s, caps, k =>
    match s with
    | [] => none
    | c :: rest => if p c then k rest caps else none
  | .seq a b, s, caps, k => reMAux next a s caps (fun s₂ c₂ => reMAux next b s₂ c₂ k)
  | .alt a b, s, caps, k =>
    match reMAux next a s caps k with
    | some res => some res
    | none => reMAux next b s caps k
  | .grp n r₂, s, caps, k =>
    reMAux next r₂ s caps (fun s₂ c₂ => k s₂ ((n, s.take (s.length - s₂.length)) :: c₂))
  | .star gr r₂, s, caps, k =>
    if gr then
      match next r₂ s caps (fun s₂ c₂ => next (.star gr r₂) s₂ c₂ k) with
      | some res => some res
      | none => k s caps
    else
      match k s caps with
      | some res => some res
      | none => next r₂ s caps (fun s₂ c₂ => next (.star gr r₂) s₂ c₂ k)

/-- The backtracking matcher.  `fuel` bounds the nesting of star iterations;
every star body in the parser's patterns consumes at least one character per
iteration, so the fuel supplied by the entry points suffices. -/
def reM : ℕ → RE → List Char → Caps → (List Char → Caps → Option Caps) → Option Caps
  | 0, _, _, _, _ => none
  | fuel + 1, r, s, caps, k => reMAux (reM fuel) r s caps k

/-- `re.match`: anchored at the start, any remainder accepted. -/
def reMatch (r : RE) (s : List Char) : Option Caps :=
  reM (4 * s.length + 8) r s [] (fun _ c => some c)

/-- `re.fullmatch`: anchored at both ends. -/
def reFullmatch (r : RE) (s : List Char) : Option Caps :=
  reM (4 * s.length + 8) r s [] (fun rest c => if rest.isEmpty then some c else none)

/-- `re.match` of a pattern ending in `$`: must reach the end of the string
(or the position before a lone trailing newline). -/
def reMatchEnd (r : RE) (s : List Char) : Option Caps :=
  reM (4 * s.length + 8) r s []
    (fun rest c => if rest.isEmpty || rest == ['\n'] then some c else none)

/-- `re.search`: the leftmost position admitting a match wins. -/
def reSearch (r : RE) (s : List Char) : Option Caps :=
  match reMatch r s with
  | some c => some c
  | none =>
    match s with
    | [] => none
    | _ :: rest => reSearch r rest

/-- The captured text of group `n`. -/
def capStr (c : Caps) (n : ℕ) : Option (List Char) :=
  (c.find? (fun p => p.1 == n)).map (fun p => p.2)

/-- Python `\s` (ASCII range, which is all the source data uses). -/
def isPySpace (c : Char) : Bool :=
  c == ' ' || c == '\t' || c == '\n' || c == '\r' || c == '\x0b' || c == '\x0c'

def rchr (c : Char) : RE := .cls (fun x => x == c)

/-- A literal character under `re.IGNORECASE`. -/
def rchrCI (c : Char) : RE := .cls (fun x => x.toLower == c.toLower)

def rcat (l : List RE) : RE := l.foldr .seq .eps

def rstr (s : String) : RE := rcat (s.data.map rchr)

def rstrCI (s : String) : RE := rcat (s.data.map rchrCI)

def rdigit : RE := .cls Char.isDigit

def rws : RE := .cls isPySpace

def ropt (r : RE) : RE := .alt r .eps

def rstar (r : RE) : RE := .star true r

def rplus (r : RE) : RE := .seq r (.star true r)

/-- `.` (any character but a newline). -/
def rdot : RE := .cls (fun c => c != '\n')

/-- `.*?`-style lazy repetition. -/
def rlazystar (r : RE) : RE := .star false r

/-- Capture group shorthand. -/
def rg (n : ℕ) (r : RE) : RE := .grp n r

/-- `\d+(?:,\d{3})*` — an integer with optional thousands separators. -/
def numComma : RE :=
  .seq (rplus rdigit) (rstar (rcat [rchr ',', rdigit, rdigit, rdigit]))

/-- `\d+\.?\d*`. -/
def numDec : RE := rcat [rplus rdigit, ropt (rchr '.'), rstar rdigit]

/-- `\d+(?:,\d{3})*(?:\.\d+)?`. -/
def numCommaDec : RE := .seq numComma (ropt (.seq (rchr '.') (rplus rdigit)))

/-- `\d+(?:\.\d+)?`. -/
def numDotOpt : RE := .seq (rplus rdigit) (ropt (.seq (rchr '.') (rplus rdigit)))

def digitsToNat (l : List Char) : ℕ :=
  l.foldl (fun acc c => 10 * acc + (c.toNat - '0'.toNat)) 0

/-- `_to_float` (parse_csv.py): strip commas, then `float()` on a token of
shape digits with an optional fractional part. -/
def parseNum (l : List Char) : ℚ :=
  let l₂ := l.filter (fun c => c != ',')
  let ip := l₂.takeWhile (fun c => c != '.')
  let fp := (l₂.dropWhile (fun c => c != '.')).drop 1
  qAdd (mkRat (digitsToNat ip) 1) (mkRat (digitsToNat fp) (pow10 fp.length))

/-- `_to_int` (parse_csv.py): strip commas, then `int()`. -/
def parseIntC (l : List Char) : ℤ := (digitsToNat (l.filter (fun c => c != ',')) : ℤ)

/-- Python `str.strip()`. -/
def pyStrip (l : List Char) : List Char :=
  ((l.dropWhile isPySpace).reverse.dropWhile isPySpace).reverse

/-! ## `parse_csv.py` — TierLineParser

Each pattern of the cascade in `parse_tier_line` (lines 38-600), in source
order, with its extraction.  Patterns written without `re.IGNORECASE` in the
source use case-sensitive literals here and vice versa. -/

/-- The section-header guard class `[A-Za-z0-9\s/()._-]`. -/
def headerChar (c : Char) : Bool :=
  ('A' ≤ c && c ≤ 'Z') || ('a' ≤ c && c ≤ 'z') || ('0' ≤ c && c ≤ '9') ||
  isPySpace c || c == '/' || c == '(' || c == ')' || c == '.' || c == '_' || c == '-'

/-- `[A-Za-z0-9\s/()._-]+:` (line 51), used with `re.fullmatch`. -/
def reHeader : RE := .seq (rplus (.cls headerChar)) (rchr ':')

/-- `(\d+(?:,\d{3})*)\s*GB\$(\d+\.?\d*)/(?:GB|G)\$(\d+(?:,\d{3})*(?:\.\d+)?)` (line 56). -/
def reGbExplicit : RE :=
  rcat [rg 1 numComma, rstar rws, rstr "GB$", rg 2 numDec, rchr '/',
    .alt (rstr "GB") (rstr "G"), rchr '$', rg 3 numCommaDec]

def mGbExplicit (l : List Char) : Option Dict :=
  match reMatch reGbExplicit l with
  | none => none
  | some c =>
    match capStr c 1, capStr c 2, capStr c 3 with
    | some a, some b, some d =>
      some [("gb", .vfloat (parseNum a)), ("price_per_gb", .vfloat (parseNum b)),
            ("total", .vfloat (parseNum d)), ("pricing_model", .vstr "per_gb")]
    | _, _, _ => none

/-- `(\d+(?:,\d{3})*)\s*GB\$(\d+\.?\d*)\$(\d+(?:,\d{3})*(?:\.\d+)?)` (line 72). -/
def reGbImplicit : RE :=
  rcat [rg 1 numComma, rstar rws, rstr "GB$", rg 2 numDec, rchr '$', rg 3 numCommaDec]

def matchGbImplicit (l : List Char) : Option (List Char × List Char × List Char) :=
  match reMatch reGbImplicit l with
  | none => none
  | some c =>
    match capStr c 1, capStr c 2, capStr c 3 with
    | some a, some b, some d => some (a, b, d)
    | _, _, _ => none

def mGbImplicit (l : List Char) : Option Dict :=
  (matchGbImplicit l).map (fun t =>
    [("gb", .vfloat (parseNum t.1)), ("price_per_gb", .vfloat (parseNum t.2.1)),
     ("total", .vfloat (parseNum t.2.2)), ("pricing_model", .vstr "per_gb")])

/-- `(\d+(?:,\d{3})*)\s*GB:\s*\$(\d+\.?\d*)/(?:GB|G)` (line 88, IGNORECASE). -/
def reGbColon : RE :=
  rcat [rg 1 numComma, rstar rws, rstrCI "GB:", rstar rws, rchr '$', rg 2 numDec,
    rchr '/', .alt (rstrCI "GB") (rstrCI "G")]

def mGbColon (l : List Char) : Option Dict :=
  match reMatch reGbColon l with
  | none => none
  | some c =>
    match capStr c 1, capStr c 2 with
    | some a, some b =>
      let gb := parseNum a
      let pr := parseNum b
      some [("gb", .vfloat gb), ("price_per_gb", .vfloat pr),
            ("total", .vfloat (pyRound (qMul gb pr) 2)), ("pricing_model", .vstr "per_gb")]
    | _, _ => none

/-- `(\d+(?:,\d{3})*)\s*GB:\s*\$(\d+\.?\d*)/(?:mo|month)` (line 105, IGNORECASE). -/
def reGbColonMonthly : RE :=
  rcat [rg 1 numComma, rstar rws, rstrCI "GB:", rstar rws, rchr '$', rg 2 numDec,
    rchr '/', .alt (rstrCI "mo") (rstrCI "month")]

def mGbColonMonthly (l : List Char) : Option Dict :=
  match reMatch reGbColonMonthly l with
  | none => none
  | some c =>
    match capStr c 1, capStr c 2 with
    | some a, some b =>
      let gb := parseNum a
      let total := parseNum b
      some [("gb", .vfloat gb),
            ("price_per_gb", if 0 < gb then .vfloat (pyRound (qDiv total gb) 4) else .vint 0),
            ("total", .vfloat total), ("pricing_model", .vstr "per_gb")]
    | _, _ => none

/-- `(\d+(?:,\d{3})*)\s*GB\s*-\s*(\d+(?:,\d{3})*)\s*GB:\s*\$(\d+\.?\d*)/(?:GB|G)`
(line 122, IGNORECASE). -/
def reGbRange : RE :=
  rcat [rg 1 numComma, rstar rws, rstrCI "GB", rstar rws, rchr '-', rstar rws,
    rg 2 numComma, rstar rws, rstrCI "GB:", rstar rws, rchr '$', rg 3 numDec,
    rchr '/', .alt (rstrCI "GB") (rstrCI "G")]

def mkRangeTier (a b d : List Char) : Dict :=
  [("gb", .vint 1), ("price_per_gb", .vfloat (parseNum d)),
   ("total", .vfloat (parseNum d)), ("pricing_model", .vstr "per_gb"),
   ("is_payg", .vbool true), ("min_gb", .vfloat (parseNum a)),
   ("max_gb", .vfloat (parseNum b))]

def mGbRange (l : List Char) : Option Dict :=
  match reMatch reGbRange l with
  | none => none
  | some c =>
    match capStr c 1, capStr c 2, capStr c 3 with
    | some a, some b, some d => some (mkRangeTier a b d)
    | _, _, _ => none

/-- `(\d+(?:,\d{3})*)\s*-\s*(\d+(?:,\d{3})*)\s*GB:\s*\$(\d+\.?\d*)/(?:GB|G)`
(line 142, IGNORECASE). -/
def reGbRangeCompact : RE :=
  rcat [rg 1 numComma, rstar rws, rchr '-', rstar rws, rg 2 numComma, rstar rws,
    rstrCI "GB:", rstar rws, rchr '$', rg 3 numDec,
    rchr '/', .alt (rstrCI "GB") (rstrCI "G")]

def mGbRangeCompact (l : List Char) : Option Dict :=
  match reMatch reGbRangeCompact l with
  | none => none
  | some c =>
    match capStr c 1, capStr c 2, capStr c 3 with
    | some a, some b, some d => some (mkRangeTier a b d)
    | _, _, _ => none

/-- `(\d+(?:,\d{3})*)\s*IPs?\$(\d+\.?\d*)/IP\$(\d+(?:,\d{3})*(?:\.\d+)?)` (line 162). -/
def reIp : RE :=
  rcat [rg 1 numComma, rstar rws, rstr "IP", ropt (rchr 's'), rchr '$', rg 2 numDec,
    rstr "/IP$", rg 3 numCommaDec]

def mkIpTier (a b d : List Char) : Dict :=
  [("ips", .vint (parseIntC a)), ("price_per_ip", .vfloat (parseNum b)),
   ("total", .vfloat (parseNum d)), ("pricing_model", .vstr "per_ip")]

def mIp (l : List Char) : Option Dict :=
  match reMatch reIp l with
  | none => none
  | some c =>
    match capStr c 1, capStr c 2, capStr c 3 with
    | some a, some b, some d => some (mkIpTier a b d)
    | _, _, _ => none

/-- `(\d+(?:,\d{3})*)\s*IPs?\$(\d+\.?\d*)\$(\d+(?:,\d{3})*(?:\.\d+)?)` (line 178). -/
def reIpImplicit : RE :=
  rcat [rg 1 numComma, rstar rws, rstr "IP", ropt (rchr 's'), rchr '$', rg 2 numDec,
    rchr '$', rg 3 numCommaDec]

def mIpImplicit (l : List Char) : Option Dict :=
  match reMatch reIpImplicit l with
  | none => none
  | some c =>
    match capStr c 1, capStr c 2, capStr c 3 with
    | some a, some b, some d => some (mkIpTier a b d)
    | _, _, _ => none

/-- `\$(\d+(?:,\d{3})*(?:\.\d+)?)\s*/\s*(\d+(?:,\d{3})*)\s*IPs?` (line 194,
IGNORECASE).  On a match with `ips <= 0` the source returns `None` from the
whole function, so the result is doubly optional: `none` means "pattern did
not match, try the next rule", `some none` means "matched, return no tier". -/
def reTotalOverIps : RE :=
  rcat [rchr '$', rg 1 numCommaDec, rstar rws, rchr '/', rstar rws, rg 2 numComma,
    rstar rws, rstrCI "IP", ropt (rchrCI 's')]

def mTotalOverIps (l : List Char) : Option (Option Dict) :=
  match reMatch reTotalOverIps l with
  | none => none
  | some c =>
    match capStr c 1, capStr c 2 with
    | some a, some b =>
      let total := parseNum a
      let ips := parseIntC b
      if ips ≤ 0 then some none
      else some (some
        [("ips", .vint ips),
         ("price_per_ip", .vfloat (pyRound (qDiv total (mkRat ips 1)) 4)),
         ("total", .vfloat total), ("pricing_model", .vstr "per_ip")])
    | _, _ => none

/-- `(\d+)\s*Day(?:s)?(?:[^$]*)\s*\$?(\d+\.?\d*)/IP` (line 213, IGNORECASE). -/
def reDaysPerIp : RE :=
  rcat [rg 1 (rplus rdigit), rstar rws, rstrCI "Day", ropt (rchrCI 's'),
    rstar (.cls (fun c => c != '$')), rstar rws, ropt (rchr '$'), rg 2 numDec,
    rstrCI "/IP"]

def mDaysPerIp (l : List Char) : Option Dict :=
  match reMatch reDaysPerIp l with
  | none => none
  | some c =>
    match capStr c 1, capStr c 2 with
    | some a, some b =>
      some [("ips", .vint 1), ("price_per_ip", .vfloat (parseNum b)),
            ("total", .vfloat (parseNum b)), ("pricing_model", .vstr "per_ip"),
            ("period_days", .vint (digitsToNat a))]
    | _, _ => none

/-- `(\d+)\s*Month(?:s)?(?:[^$]*)\s*\$?(\d+\.?\d*)/IP(?:/Mo)?` (line 230,
IGNORECASE). -/
def reMonthsPerIp : RE :=
  rcat [rg 1 (rplus rdigit), rstar rws, rstrCI "Month", ropt (rchrCI 's'),
    rstar (.cls (fun c => c != '$')), rstar rws, ropt (rchr '$'), rg 2 numDec,
    rstrCI "/IP", ropt (rstrCI "/Mo")]

def mMonthsPerIp (l : List Char) : Option Dict :=
  match reMatch reMonthsPerIp l with
  | none => none
  | some c =>
    match capStr c 1, capStr c 2 with
    | some a, some b =>
      some [("ips", .vint 1), ("price_per_ip", .vfloat (parseNum b)),
            ("total", .vfloat (parseNum b)), ("pricing_model", .vstr "per_ip"),
            ("period_months", .vint (digitsToNat a))]
    | _, _ => none

/-- `(\d+(?:,\d{3})*)\s*GB(?:\+)?\s*:\s*\$(\d+\.?\d*)/IP` (line 247, IGNORECASE). -/
def reGbBucketPerIp : RE :=
  rcat [rg 1 numComma, rstar rws, rstrCI "GB", ropt (rchr '+'), rstar rws, rchr ':',
    rstar rws, rchr '$', rg 2 numDec, rstrCI "/IP"]

def mGbBucketPerIp (l : List Char) : Option Dict :=
  match reMatch reGbBucketPerIp l with
  | none => none
  | some c =>
    match capStr c 1, capStr c 2 with
    | some a, some b =>
      some [("ips", .vint 1), ("price_per_ip", .vfloat (parseNum b)),
            ("total", .vfloat (parseNum b)), ("pricing_model", .vstr "per_ip"),
            ("min_gb", .vfloat (parseNum a))]
    | _, _ => none

/-- `From\s*(\d+(?:\.\d+)?)\s*TB(?:\+)?\s*:\s*\$(\d+\.?\d*)/IP` (line 264,
IGNORECASE). -/
def reTbBucketPerIp : RE :=
  rcat [rstrCI "From", rstar rws, rg 1 numDotOpt, rstar rws, rstrCI "TB",
    ropt (rchr '+'), rstar rws, rchr ':', rstar rws, rchr '$', rg 2 numDec,
    rstrCI "/IP"]

def mTbBucketPerIp (l : List Char) : Option Dict :=
  match reMatch reTbBucketPerIp l with
  | none => none
  | some c =>
    match capStr c 1, capStr c 2 with
    | some a, some b =>
      let tb := parseNum a
      some [("ips", .vint 1), ("price_per_ip", .vfloat (parseNum b)),
            ("total", .vfloat (parseNum b)), ("pricing_model", .vstr "per_ip"),
            ("min_gb", .vfloat (qMul tb (mkRat 1000 1))), ("min_tb", .vfloat tb)]
    | _, _ => none

/-- `\$(\d+(?:,\d{3})*(?:\.\d+)?)\s*/\s*mo\s*\((\d+(?:,\d{3})*)\s*IPs?\):\s*\$(\d+\.?\d*)/IP`
(line 282, IGNORECASE). -/
def reMonthlyIpParen : RE :=
  rcat [rchr '$', rg 1 numCommaDec, rstar rws, rchr '/', rstar rws, rstrCI "mo",
    rstar rws, rchr '(', rg 2 numComma, rstar rws, rstrCI "IP", ropt (rchrCI 's'),
    rstr "):", rstar rws, rchr '$', rg 3 numDec, rstrCI "/IP"]

def mMonthlyIpParen (l : List Char) : Option Dict :=
  match reMatch reMonthlyIpParen l with
  | none => none
  | some c =>
    match capStr c 1, capStr c 2, capStr c 3 with
    | some a, some b, some d =>
      some [("ips", .vint (parseIntC b)), ("price_per_ip", .vfloat (parseNum d)),
            ("total", .vfloat (parseNum a)), ("pricing_model", .vstr "per_ip"),
            ("period_months", .vint 1)]
    | _, _, _ => none

/-- `(\d+)\s*Hour(?:s)?(?:[^$]*)\s*\$?(\d+\.?\d*)/IP` (line 300, IGNORECASE). -/
def reHoursPerIp : RE :=
  rcat [rg 1 (rplus rdigit), rstar rws, rstrCI "Hour", ropt (rchrCI 's'),
    rstar (.cls (fun c => c != '$')), rstar rws, ropt (rchr '$'), rg 2 numDec,
    rstrCI "/IP"]

def mHoursPerIp (l : List Char) : Option Dict :=
  match reMatch reHoursPerIp l with
  | none => none
  | some c =>
    match capStr c 1, capStr c 2 with
    | some a, some b =>
      some [("ips", .vint 1), ("price_per_ip", .vfloat (parseNum b)),
            ("total", .vfloat (parseNum b)), ("pricing_model", .vstr "per_ip"),
            ("period_hours", .vint (digitsToNat a))]
    | _, _ => none

/-- `\$(\d+(?:,\d{3})*(?:\.\d+)?)/(\d+)\s*GB:\s*\$(\d+\.?\d*)/(?:GB|G)` (line 317,
IGNORECASE). -/
def rePlanGb : RE :=
  rcat [rchr '$', rg 1 numCommaDec, rchr '/', rg 2 (rplus rdigit), rstar rws,
    rstrCI "GB:", rstar rws, rchr '$', rg 3 numDec,
    rchr '/', .alt (rstrCI "GB") (rstrCI "G")]

def mPlanGb (l : List Char) : Option Dict :=
  match reMatch rePlanGb l with
  | none => none
  | some c =>
    match capStr c 1, capStr c 2, capStr c 3 with
    | some a, some b, some d =>
      some [("gb", .vfloat (parseNum b)), ("price_per_gb", .vfloat (parseNum d)),
            ("total", .vfloat (parseNum a)), ("pricing_model", .vstr "per_gb")]
    | _, _, _ => none

/-- `\$(\d+(?:,\d{3})*(?:\.\d+)?)\s*/\s*mo:\s*\$(\d+\.?\d*)/(?:GB|G)` (line 334,
IGNORECASE). -/
def reMonthTotalPerGb : RE :=
  rcat [rchr '$', rg 1 numCommaDec, rstar rws, rchr '/', rstar rws, rstrCI "mo:",
    rstar rws, rchr '$', rg 2 numDec, rchr '/', .alt (rstrCI "GB") (rstrCI "G")]

/-- Common extraction for the two "derive GB from total and price" rules
(lines 338-347 and 355-364). -/
def mkDerivedGbTier (a b : List Char) : Dict :=
  let total := parseNum a
  let pr := parseNum b
  [("gb", if 0 < pr then .vfloat (pyRound (qDiv total pr) 4) else .vint 0),
   ("price_per_gb", .vfloat pr), ("total", .vfloat total),
   ("pricing_model", .vstr "per_gb")]

def mMonthTotalPerGb (l : List Char) : Option Dict :=
  match reMatch reMonthTotalPerGb l with
  | none => none
  | some c =>
    match capStr c 1, capStr c 2 with
    | some a, some b => some (mkDerivedGbTier a b)
    | _, _ => none

/-- `\$(\d+(?:,\d{3})*(?:\.\d+)?)\s*:\s*\$(\d+\.?\d*)/(?:GB|G)` (line 351,
IGNORECASE). -/
def reTotalPerGb : RE :=
  rcat [rchr '$', rg 1 numCommaDec, rstar rws, rchr ':', rstar rws, rchr '$',
    rg 2 numDec, rchr '/', .alt (rstrCI "GB") (rstrCI "G")]

def mTotalPerGb (l : List Char) : Option Dict :=
  match reMatch reTotalPerGb l with
  | none => none
  | some c =>
    match capStr c 1, capStr c 2 with
    | some a, some b => some (mkDerivedGbTier a b)
    | _, _ => none

/-- `\$(\d+\.?\d*)\s*per\s*GB` (line 368, IGNORECASE). -/
def rePerGbWords : RE :=
  rcat [rchr '$', rg 1 numDec, rstar rws, rstrCI "per", rstar rws, rstrCI "GB"]

def mPerGbWords (l : List Char) : Option Dict :=
  match reMatch rePerGbWords l with
  | none => none
  | some c =>
    match capStr c 1 with
    | some a =>
      some [("gb", .vint 1), ("price_per_gb", .vfloat (parseNum a)),
            ("total", .vfloat (parseNum a)), ("pricing_model", .vstr "per_gb"),
            ("is_payg", .vbool true)]
    | none => none

/-- `Per\s*Month:\s*\$(\d+\.?\d*)/IP` (line 384, IGNORECASE). -/
def rePerMonthIp : RE :=
  rcat [rstrCI "Per", rstar rws, rstrCI "Month:", rstar rws, rchr '$', rg 1 numDec,
    rstrCI "/IP"]

def mPerMonthIp (l : List Char) : Option Dict :=
  match reMatch rePerMonthIp l with
  | none => none
  | some c =>
    match capStr c 1 with
    | some a =>
      some [("ips", .vint 1), ("price_per_ip", .vfloat (parseNum a)),
            ("total", .vfloat (parseNum a)), ("pricing_model", .vstr "per_ip"),
            ("period_months", .vint 1)]
    | none => none

/-- `(\d+(?:,\d{3})*)\s*-\s*(\d+(?:,\d{3})*)\s*IPs?:\s*\$(\d+\.?\d*)/IP` (line 400,
IGNORECASE). -/
def reIpRange : RE :=
  rcat [rg 1 numComma, rstar rws, rchr '-', rstar rws, rg 2 numComma, rstar rws,
    rstrCI "IP", ropt (rchrCI 's'), rchr ':', rstar rws, rchr '$', rg 3 numDec,
    rstrCI "/IP"]

def mIpRange (l : List Char) : Option Dict :=
  match reMatch reIpRange l with
  | none => none
  | some c =>
    match capStr c 1, capStr c 2, capStr c 3 with
    | some a, some b, some d =>
      some [("ips", .vint 1), ("price_per_ip", .vfloat (parseNum d)),
            ("total", .vfloat (parseNum d)), ("pricing_model", .vstr "per_ip"),
            ("min_ips", .vint (parseIntC a)), ("max_ips", .vint (parseIntC b))]
    | _, _, _ => none

/-- `\$(\d+(?:,\d{3})*(?:\.\d+)?)\s*/\s*(\d+(?:,\d{3})*)\s*Ports?:\s*\$(\d+\.?\d*)/Port`
(line 419, IGNORECASE). -/
def reTotalOverPorts : RE :=
  rcat [rchr '$', rg 1 numCommaDec, rstar rws, rchr '/', rstar rws, rg 2 numComma,
    rstar rws, rstrCI "Port", ropt (rchrCI 's'), rchr ':', rstar rws, rchr '$',
    rg 3 numDec, rstrCI "/Port"]

def mTotalOverPorts (l : List Char) : Option Dict :=
  match reMatch reTotalOverPorts l with
  | none => none
  | some c =>
    match capStr c 1, capStr c 2, capStr c 3 with
    | some a, some b, some _ =>
      some [("proxies", .vint (parseIntC b)), ("total", .vfloat (parseNum a)),
            ("pricing_model", .vstr "per_proxy")]
    | _, _, _ => none

/-- The unit-count derivation of lines 441-453 and 547-560: if the per-unit
price is positive and total/price is within `1e-3` of a positive integer,
that integer is the derived count. -/
def deriveCount (total pr : ℚ) : Option ℤ :=
  if 0 < pr then
    let est := qDiv total pr
    let r := roundHalfEven est
    if qAbs (qSub est (mkRat r 1)) < mkRat 1 1000 ∧ 0 < r then some r else none
  else none

/-- `\$(\d+(?:,\d{3})*(?:\.\d+)?)\s*/\s*mo:\s*\$(\d+\.?\d*)/Port` (line 434,
IGNORECASE). -/
def reMonthTotalPerPort : RE :=
  rcat [rchr '$', rg 1 numCommaDec, rstar rws, rchr '/', rstar rws, rstrCI "mo:",
    rstar rws, rchr '$', rg 2 numDec, rstrCI "/Port"]

def mMonthTotalPerPort (l : List Char) : Option Dict :=
  match reMatch reMonthTotalPerPort l with
  | none => none
  | some c =>
    match capStr c 1, capStr c 2 with
    | some a, some b =>
      let total := parseNum a
      let base : Dict := [("total", .vfloat total),
        ("pricing_model", .vstr "per_proxy"), ("period_months", .vint 1)]
      match deriveCount total (parseNum b) with
      | some n => some (dset base "proxies" (.vint n))
      | none => some base
    | _, _ => none

/-- `Pay as you go:\s*\$(\d+\.?\d*)/GB` (line 457, case-sensitive). -/
def rePayg : RE :=
  rcat [rstr "Pay as you go:", rstar rws, rchr '$', rg 1 numDec, rstr "/GB"]

def mPayg (l : List Char) : Option Dict :=
  match reMatch rePayg l with
  | none => none
  | some c =>
    match capStr c 1 with
    | some a =>
      some [("gb", .vint 1), ("price_per_gb", .vfloat (parseNum a)),
            ("total", .vfloat (parseNum a)), ("pricing_model", .vstr "per_gb"),
            ("is_payg", .vbool true)]
    | none => none

/-- `\$(\d+(?:,\d{3})*)/mo.*?(\d+)\s*GB` (line 469, `re.search`). -/
def reMonthly1 : RE :=
  rcat [rchr '$', rg 1 numComma, rstr "/mo", rlazystar rdot, rg 2 (rplus rdigit),
    rstar rws, rstr "GB"]

/-- `\$(\d+(?:,\d{3})*)/(\d+)\s*GB` (line 471, `re.search`). -/
def reMonthly2 : RE :=
  rcat [rchr '$', rg 1 numComma, rchr '/', rg 2 (rplus rdigit), rstar rws, rstr "GB"]

def mMonthly (l : List Char) : Option Dict :=
  let res := match reSearch reMonthly1 l with
    | some c => some c
    | none => reSearch reMonthly2 l
  match res with
  | none => none
  | some c =>
    match capStr c 1, capStr c 2 with
    | some a, some b =>
      let total := parseNum a
      let gb := parseNum b
      some [("gb", .vfloat gb),
            ("price_per_gb", if 0 < gb then .vfloat (pyRound (qDiv total gb) 2) else .vint 0),
            ("total", .vfloat total), ("pricing_model", .vstr "per_gb")]
    | _, _ => none

/-- `(\d+)\s*Threads?.*?\$(\d+\.?\d*)` (line 485, `re.search`). -/
def reThread : RE :=
  rcat [rg 1 (rplus rdigit), rstar rws, rstr "Thread", ropt (rchr 's'),
    rlazystar rdot, rchr '$', rg 2 numDec]

def mThread (l : List Char) : Option Dict :=
  match reSearch reThread l with
  | none => none
  | some c =>
    match capStr c 1, capStr c 2 with
    | some a, some b =>
      some [("threads", .vint (digitsToNat a)), ("total", .vfloat (parseNum b)),
            ("pricing_model", .vstr "per_thread")]
    | _, _ => none

/-- `(\d+(?:,\d{3})*)\s*Prox(?:ies|y).*?\$(\d+\.?\d*)` (line 496, `re.search`). -/
def reProxy : RE :=
  rcat [rg 1 numComma, rstar rws, rstr "Prox", .alt (rstr "ies") (rstr "y"),
    rlazystar rdot, rchr '$', rg 2 numDec]

def mProxy (l : List Char) : Option Dict :=
  match reSearch reProxy l with
  | none => none
  | some c =>
    match capStr c 1, capStr c 2 with
    | some a, some b =>
      some [("proxies", .vint (parseIntC a)), ("total", .vfloat (parseNum b)),
            ("pricing_model", .vstr "per_proxy")]
    | _, _ => none

/-- `(\d+)\s*Hour(?:s)?\s*\$?(\d+(?:,\d{3})*(?:\.\d+)?)$` (line 508, IGNORECASE,
end-anchored). -/
def reHoursTotal : RE :=
  rcat [rg 1 (rplus rdigit), rstar rws, rstrCI "Hour", ropt (rchrCI 's'),
    rstar rws, ropt (rchr '$'), rg 2 numCommaDec]

def mHoursTotal (l : List Char) : Option Dict :=
  match reMatchEnd reHoursTotal l with
  | none => none
  | some c =>
    match capStr c 1, capStr c 2 with
    | some a, some b =>
      some [("proxies", .vint 1), ("total", .vfloat (parseNum b)),
            ("pricing_model", .vstr "per_proxy"), ("period_hours", .vint (digitsToNat a))]
    | _, _ => none

/-- `(\d+)\s*Day(?:s)?(?:[^$]*)\s*\$?(\d+(?:,\d{3})*(?:\.\d+)?)$` (line 524,
IGNORECASE, end-anchored). -/
def reDaysTotal : RE :=
  rcat [rg 1 (rplus rdigit), rstar rws, rstrCI "Day", ropt (rchrCI 's'),
    rstar (.cls (fun c => c != '$')), rstar rws, ropt (rchr '$'), rg 2 numCommaDec]

def mDaysTotal (l : List Char) : Option Dict :=
  match reMatchEnd reDaysTotal l with
  | none => none
  | some c =>
    match capStr c 1, capStr c 2 with
    | some a, some b =>
      some [("proxies", .vint 1), ("total", .vfloat (parseNum b)),
            ("pricing_model", .vstr "per_proxy"), ("period_days", .vint (digitsToNat a))]
    | _, _ => none

/-- `\$(\d+(?:,\d{3})*(?:\.\d+)?)\s*/\s*mo:\s*\$(\d+\.?\d*)/IP` (line 540,
IGNORECASE). -/
def reTotalMonthPriceIp : RE :=
  rcat [rchr '$', rg 1 numCommaDec, rstar rws, rchr '/', rstar rws, rstrCI "mo:",
    rstar rws, rchr '$', rg 2 numDec, rstrCI "/IP"]

def mTotalMonthPriceIp (l : List Char) : Option Dict :=
  match reMatch reTotalMonthPriceIp l with
  | none => none
  | some c =>
    match capStr c 1, capStr c 2 with
    | some a, some b =>
      let total := parseNum a
      let pr := parseNum b
      let base : Dict := [("price_per_ip", .vfloat pr), ("total", .vfloat total),
        ("pricing_model", .vstr "per_ip"), ("period_months", .vint 1)]
      match deriveCount total pr with
      | some n => some (dset base "ips" (.vint n))
      | none => some base
    | _, _ => none

/-- `(\d+(?:,\d{3})*)\s*IPs?\s*/\s*(\d+(?:,\d{3})*)\s*GB\s*/\s*\$(\d+(?:,\d{3})*(?:\.\d+)?):\s*\$(\d+\.?\d*)/(?:GB|G)`
(line 565, IGNORECASE). -/
def reBundlePerGb : RE :=
  rcat [rg 1 numComma, rstar rws, rstrCI "IP", ropt (rchrCI 's'), rstar rws,
    rchr '/', rstar rws, rg 2 numComma, rstar rws, rstrCI "GB", rstar rws,
    rchr '/', rstar rws, rchr '$', rg 3 numCommaDec, rchr ':', rstar rws,
    rchr '$', rg 4 numDec, rchr '/', .alt (rstrCI "GB") (rstrCI "G")]

def mBundlePerGb (l : List Char) : Option Dict :=
  match reMatch reBundlePerGb l with
  | none => none
  | some c =>
    match capStr c 1, capStr c 2, capStr c 3, capStr c 4 with
    | some a, some b, some d, some e =>
      some [("gb", .vfloat (parseNum b)), ("price_per_gb", .vfloat (parseNum e)),
            ("total", .vfloat (parseNum d)), ("pricing_model", .vstr "per_gb"),
            ("ips", .vint (parseIntC a))]
    | _, _, _, _ => none

/-- `(\d+(?:,\d{3})*)\s*GB\+\s*:\s*\$(\d+\.?\d*)/(?:GB|G)` (line 584, IGNORECASE). -/
def reGbPlus : RE :=
  rcat [rg 1 numComma, rstar rws, rstrCI "GB", rchr '+', rstar rws, rchr ':',
    rstar rws, rchr '$', rg 2 numDec, rchr '/', .alt (rstrCI "GB") (rstrCI "G")]

def mGbPlus (l : List Char) : Option Dict :=
  match reMatch reGbPlus l with
  | none => none
  | some c =>
    match capStr c 1, capStr c 2 with
    | some a, some b =>
      some [("gb", .vint 1), ("price_per_gb", .vfloat (parseNum b)),
            ("total", .vfloat (parseNum b)), ("pricing_model", .vstr "per_gb"),
            ("is_payg", .vbool true), ("min_gb", .vfloat (parseNum a))]
    | _, _ => none

/-- First-match-wins step of the cascade. -/
def tryNext (r : Option Dict) (next : Unit → Option Dict) : Option Dict :=
  match r with
  | some d => some d
  | none => next ()

/-- Step for a rule that can itself return "no tier" from the whole function. -/
def tryRet (r : Option (Option Dict)) (next : Unit → Option Dict) : Option Dict :=
  match r with
  | some x => x
  | none => next ()

/-- `parse_tier_line` (parse_csv.py lines 38-600): strip, reject empty lines
and section headers, then run the pattern cascade in source order. -/
def parse_tier_line (line : String) : Option Dict :=
  let l := pyStrip line.data
  if l.isEmpty then none
  else if (reFullmatch reHeader l).isSome then none
  else
    tryNext (mGbExplicit l) fun _ =>
    tryNext (mGbImplicit l) fun _ =>
    tryNext (mGbColon l) fun _ =>
    tryNext (mGbColonMonthly l) fun _ =>
    tryNext (mGbRange l) fun _ =>
    tryNext (mGbRangeCompact l) fun _ =>
    tryNext (mIp l) fun _ =>
    tryNext (mIpImplicit l) fun _ =>
    tryRet (mTotalOverIps l) fun _ =>
    tryNext (mDaysPerIp l) fun _ =>
    tryNext (mMonthsPerIp l) fun _ =>
    tryNext (mGbBucketPerIp l) fun _ =>
    tryNext (mTbBucketPerIp l) fun _ =>
    tryNext (mMonthlyIpParen l) fun _ =>
    tryNext (mHoursPerIp l) fun _ =>
    tryNext (mPlanGb l) fun _ =>
    tryNext (mMonthTotalPerGb l) fun _ =>
    tryNext (mTotalPerGb l) fun _ =>
    tryNext (mPerGbWords l) fun _ =>
    tryNext (mPerMonthIp l) fun _ =>
    tryNext (mIpRange l) fun _ =>
    tryNext (mTotalOverPorts l) fun _ =>
    tryNext (mMonthTotalPerPort l) fun _ =>
    tryNext (mPayg l) fun _ =>
    tryNext (mMonthly l) fun _ =>
    tryNext (mThread l) fun _ =>
    tryNext (mProxy l) fun _ =>
    tryNext (mHoursTotal l) fun _ =>
    tryNext (mDaysTotal l) fun _ =>
    tryNext (mTotalMonthPriceIp l) fun _ =>
    tryNext (mBundlePerGb l) fun _ =>
    mGbPlus l

/-! ## Claims C5-C7 -/

/-- C5: `parse_tier_line` is total — every line yields a tier or no match —
and each ratio-derived field is guarded against a zero divisor: a zero
divisor yields zero for the derived field (lines 112, 341, 358, 476), the
absence of the derived field (lines 441-453, 547-560), or no match
(line 201), never a crash. -/
theorem c5 :
    (∀ line : String,
      parse_tier_line line = none ∨ ∃ d : Dict, parse_tier_line line = some d) ∧
    parse_tier_line "0 GB: $5/mo" =
      some [("gb", .vfloat 0), ("price_per_gb", .vint 0), ("total", .vfloat 5),
            ("pricing_model", .vstr "per_gb")] ∧
    parse_tier_line "$10/0 IPs" = none ∧
    parse_tier_line "$10/mo: $0/GB" =
      some [("gb", .vint 0), ("price_per_gb", .vfloat 0), ("total", .vfloat 10),
            ("pricing_model", .vstr "per_gb")] ∧
    parse_tier_line "$100/0 GB" =
      some [("gb", .vfloat 0), ("price_per_gb", .vint 0), ("total", .vfloat 100),
            ("pricing_model", .vstr "per_gb")] ∧
    parse_tier_line "$10/mo: $0/Port" =
      some [("total", .vfloat 10), ("pricing_model", .vstr "per_proxy"),
            ("period_months", .vint 1)] ∧
    parse_tier_line "$10/mo: $0/IP" =
      some [("price_per_ip", .vfloat 0), ("total", .vfloat 10),
            ("pricing_model", .vstr "per_ip"), ("period_months", .vint 1)] := by
  refine ⟨fun line => ?_, by decide, by decide, by decide, by decide, by decide, by decide⟩
  cases h : parse_tier_line line with
  | none => exact Or.inl rfl
  | some d => exact Or.inr ⟨d, rfl⟩

/-- C6: any stripped line fully matching the section-header guard
`[A-Za-z0-9\s/()._-]+:` is rejected before the cascade and never produces a
tier; in particular `"Dedicated:"` yields no match, and `"3 Days 2/IP:"`
yields no match even though a cascade rule (`days-per-IP`) would match it. -/
theorem c6 :
    (∀ line : String, (reFullmatch reHeader (pyStrip line.data)).isSome = true →
      parse_tier_line line = none) ∧
    parse_tier_line "Dedicated:" = none ∧
    parse_tier_line "3 Days 2/IP:" = none ∧
    (mDaysPerIp (pyStrip ("3 Days 2/IP:").data)).isSome = true := by
  refine ⟨fun line h => ?_, by decide, by decide, by decide⟩
  by_cases hl : (pyStrip line.data).isEmpty
  · simp [parse_tier_line, hl]
  · simp [parse_tier_line, hl, h]

/-- Witness for C6: the guard fires on `"Dedicated:"` and the parser returns
no match there. -/
theorem c6_witness :
    (reFullmatch reHeader (pyStrip ("Dedicated:").data)).isSome = true ∧
    parse_tier_line "Dedicated:" = none :=
  ⟨by decide, c6.1 "Dedicated:" (by decide)⟩

/-- C7: when a line reaches the `X GB$Y$Z` rule and matches it, the parser
returns exactly the three stated numbers — the stated total is authoritative
even when `Z ≠ X·Y`, and the unit price is never recomputed; in particular
`"25 GB$3.6$90"` parses to `gb=25, price_per_gb=3.6, total=90, per_gb`. -/
theorem c7 (line : String) (x y z : List Char)
    (hdr : reFullmatch reHeader (pyStrip line.data) = none)
    (h₁ : reMatch reGbExplicit (pyStrip line.data) = none)
    (h₂ : matchGbImplicit (pyStrip line.data) = some (x, y, z)) :
    parse_tier_line line =
      some [("gb", .vfloat (parseNum x)), ("price_per_gb", .vfloat (parseNum y)),
            ("total", .vfloat (parseNum z)), ("pricing_model", .vstr "per_gb")] ∧
    parse_tier_line "25 GB$3.6$90" =
      some [("gb", .vfloat 25), ("price_per_gb", .vfloat (mkRat 18 5)),
            ("total", .vfloat 90), ("pricing_model", .vstr "per_gb")] := by
  constructor
  · have hne : (pyStrip line.data).isEmpty = false := by
      cases hl : pyStrip line.data with
      | nil =>
        rw [hl] at h₂
        have hnone : matchGbImplicit ([] : List Char) = none := by decide
        rw [hnone] at h₂
        exact Option.noConfusion h₂
      | cons a as => rfl
    have hhdr : (reFullmatch reHeader (pyStrip line.data)).isSome = false := by
      rw [hdr]; rfl
    have hm₁ : mGbExplicit (pyStrip line.data) = none := by
      unfold mGbExplicit
      rw [h₁]
    have hm₂ : mGbImplicit (pyStrip line.data) =
        some [("gb", .vfloat (parseNum x)), ("price_per_gb", .vfloat (parseNum y)),
              ("total", .vfloat (parseNum z)), ("pricing_model", .vstr "per_gb")] := by
      unfold mGbImplicit
      rw [h₂]
      rfl
    simp only [parse_tier_line, hne, Bool.false_eq_true, if_false, hhdr, tryNext,
      hm₁, hm₂]
  · decide

/-- Witness for C7 at the spec's own rounding-law line. -/
theorem c7_witness :
    reFullmatch reHeader (pyStrip ("25 GB$3.6$90").data) = none ∧
    reMatch reGbExplicit (pyStrip ("25 GB$3.6$90").data) = none ∧
    matchGbImplicit (pyStrip ("25 GB$3.6$90").data) =
      some (['2', '5'], ['3', '.', '6'], ['9', '0']) ∧
    parse_tier_line "25 GB$3.6$90" =
      some [("gb", .vfloat (parseNum ['2', '5'])),
            ("price_per_gb", .vfloat (parseNum ['3', '.', '6'])),
            ("total", .vfloat (parseNum ['9', '0'])),
            ("pricing_model", .vstr "per_gb")] :=
  ⟨by decide, by decide, by decide,
    (c7 "25 GB$3.6$90" ['2', '5'] ['3', '.', '6'] ['9', '0']
      (by decide) (by decide) (by decide)).1⟩

/-! ## `validate_output.py` — SchemaValidator

Field paths in errors are abbreviated to the field name (the Python code
interpolates indices into them); nothing below depends on path contents. -/

/-- A `SchemaValidationError`: path, message and offending value. -/
structure SchemaErr where
  path : String
  message : String
  value : JVal
  deriving Repr, DecidableEq

/-- A validation step: an error aborts the file's validation. -/
abbrev V (α : Type) := Except SchemaErr α

def isErr {α : Type} (r : V α) : Bool :=
  match r with
  | .error _ => true
  | .ok _ => false

/-- Sequencing of validation steps (explicit, to keep proofs by cases). -/
def vbind {α β : Type} (x : V α) (f : α → V β) : V β :=
  match x with
  | .error e => .error e
  | .ok a => f a

/-- `validate_nonempty_string` (lines 40-54). -/
def validate_nonempty_string (v : JVal) (field : String) : V String :=
  match v with
  | .vstr s =>
    if (pyStrip s.data).isEmpty then .error ⟨field, "String cannot be empty", v⟩
    else .ok s
  | _ => .error ⟨field, "Expected string", v⟩

def slugChar (c : Char) : Bool :=
  ('a' ≤ c && c ≤ 'z') || ('0' ≤ c && c ≤ '9') || c == '-'

/-- `re.match(r'^[a-z0-9-]+$', s)`: anchored at the start; `$` also matches
just before a lone trailing newline. -/
def slugMatch (l : List Char) : Bool :=
  (!l.isEmpty && l.all slugChar) ||
  (l.getLast? == some '\n' && !l.dropLast.isEmpty && l.dropLast.all slugChar)

/-- `validate_slug` (lines 57-66). -/
def validate_slug (v : JVal) (field : String) : V String :=
  vbind (validate_nonempty_string v field) fun s =>
  if slugMatch s.data then .ok s
  else .error ⟨field, "Slug must be lowercase alphanumeric with hyphens", v⟩

def isSchemeChar (c : Char) : Bool :=
  c.isAlpha || c.isDigit || c == '+' || c == '-' || c == '.'

/-- The scheme/remainder split of `urllib.parse.urlsplit`: a scheme is
recognised when a `:` is preceded by a letter-initial run of scheme
characters. -/
def splitScheme (l : List Char) : String × List Char :=
  match l.findIdx? (fun c => c == ':') with
  | none => ("", l)
  | some i =>
    if 0 < i ∧ (l.headD ' ').isAlpha ∧ (l.take i).all isSchemeChar then
      (String.mk ((l.take i).map Char.toLower), l.drop (i + 1))
    else ("", l)

/-- The netloc of `urllib.parse.urlsplit`: present only after `//`, up to the
next `/`, `?` or `#`. -/
def splitNetloc (rest : List Char) : List Char :=
  match rest with
  | '/' :: '/' :: r => r.takeWhile (fun c => !(c == '/' || c == '?' || c == '#'))
  | _ => []

/-- `validate_url` (lines 69-101): empty strings are allowed through. -/
def validate_url (v : JVal) (field : String) : V String :=
  match v with
  | .vstr s =>
    if s = "" then .ok s
    else if (splitScheme s.data).1 = "" ∨ (splitNetloc (splitScheme s.data).2).isEmpty
    then .error ⟨field, "Invalid URL format", v⟩
    else if (splitScheme s.data).1 ≠ "http" ∧ (splitScheme s.data).1 ≠ "https" then
      .error ⟨field, "URL must use http or https scheme", v⟩
    else .ok s
  | _ => .error ⟨field, "Expected string URL", v⟩

/-- `validate_nonnegative_number` (lines 104-120); Python `bool` is an `int`
and converts via `float()`. -/
def validate_nonnegative_number (v : JVal) (field : String) : V JVal :=
  match v with
  | .vnull => .ok .vnull
  | .vbool b => .ok (.vfloat (if b then 1 else 0))
  | .vint n =>
    if n < 0 then .error ⟨field, "Number must be non-negative", v⟩
    else .ok (.vfloat (mkRat n 1))
  | .vfloat q =>
    if q < 0 then .error ⟨field, "Number must be non-negative", v⟩
    else .ok (.vfloat q)
  | _ => .error ⟨field, "Expected number", v⟩

/-- `validate_boolean` (lines 123-131). -/
def validate_boolean (v : JVal) (field : String) : V JVal :=
  match v with
  | .vbool _ => .ok v
  | _ => .error ⟨field, "Expected boolean", v⟩

/-- `validate_nonnegative_int` (lines 134-148); Python `bool` is an `int`. -/
def validate_nonnegative_int (v : JVal) (field : String) : V JVal :=
  match v with
  | .vint n =>
    if n < 0 then .error ⟨field, "Integer must be non-negative", v⟩ else .ok v
  | .vbool _ => .ok v
  | _ => .error ⟨field, "Expected integer", v⟩

/-- `validate_proxy_type` (lines 151-174), non-strict as used by the record
validator. -/
def validate_proxy_type (v : JVal) (field : String) : V JVal :=
  match v with
  | .vstr s =>
    if s = "residential" ∨ s = "datacenter" ∨ s = "mobile" ∨ s = "isp" ∨ s = "other"
    then .ok v
    else .error ⟨field, "Must be one of the proxy types", v⟩
  | _ => .error ⟨field, "Expected string", v⟩

def pricingModels : List String := ["per_gb", "per_ip", "per_proxy", "per_thread", "unknown"]

/-- `validate_pricing_model` (lines 177-192). -/
def validate_pricing_model (v : JVal) (field : String) : V JVal :=
  match v with
  | .vstr s =>
    if s ∈ pricingModels then .ok v
    else .error ⟨field, "Must be one of the pricing models", v⟩
  | _ => .error ⟨field, "Expected string", v⟩

/-- `validate_nullable_url` (lines 220-224). -/
def validate_nullable_url (v : JVal) (field : String) : V JVal :=
  if v = .vnull ∨ v = .vstr "" then .ok .vnull
  else vbind (validate_url v field) fun s => .ok (.vstr s)

/-- An optional numeric tier field — validated and stored when present and
non-`None` (lines 254-261). -/
def stepOptNum (d : Dict) (key : String) (acc : Dict) : V Dict :=
  match dget d key with
  | none => .ok acc
  | some v =>
    if v = .vnull then .ok acc
    else vbind (validate_nonnegative_number v key) fun x => .ok (dset acc key x)

/-- An optional boolean tier field (lines 270-271). -/
def stepOptBool (d : Dict) (key : String) (acc : Dict) : V Dict :=
  match dget d key with
  | none => .ok acc
  | some v =>
    if v = .vnull then .ok acc
    else vbind (validate_boolean v key) fun x => .ok (dset acc key x)

/-- The `ips` positive-integer check (lines 277-284); Python `bool` is an
`int`, so `True` (= 1) passes. -/
def stepIps (d : Dict) (acc : Dict) : V Dict :=
  match dget d "ips" with
  | none => .ok acc
  | some v =>
    if v = .vnull then .ok acc
    else
      match v with
      | .vint n =>
        if 0 < n then .ok (dset acc "ips" v)
        else .error ⟨"ips", "ips must be a positive integer", v⟩
      | .vbool b =>
        if b then .ok (dset acc "ips" v)
        else .error ⟨"ips", "ips must be a positive integer", v⟩
      | _ => .error ⟨"ips", "ips must be a positive integer", v⟩

/-- The passthrough loop copying unvalidated keys (lines 287-289, 320-322,
376-378). -/
def passthrough (d : Dict) (acc : Dict) : Dict :=
  d.foldl (fun a p => if containsKey a p.1 then a else dset a p.1 p.2) acc

/-- `validate_tier` (lines 241-291). -/
def validate_tier (tier : JVal) (index : ℕ) : V Dict :=
  match tier with
  | .vdict d =>
    vbind (stepOptNum d "gb" []) fun acc₁ =>
    vbind (stepOptNum d "price_per_gb" acc₁) fun acc₂ =>
    vbind (stepOptNum d "total" acc₂) fun acc₃ =>
    vbind
      (match dget d "pricing_model" with
       | some v =>
         vbind (validate_pricing_model v "pricing_model") fun x =>
           .ok (dset acc₃ "pricing_model" x)
       | none => .ok (dset acc₃ "pricing_model" (.vstr "unknown"))) fun acc₄ =>
    vbind (stepOptBool d "is_payg" acc₄) fun acc₅ =>
    vbind (stepOptNum d "price_per_ip" acc₅) fun acc₆ =>
    vbind (stepIps d acc₆) fun acc₇ =>
    .ok (passthrough d acc₇)
  | _ => .error ⟨"tiers", "Expected object", tier⟩

/-- The per-element validation of a tiers array (lines 366-368). -/
def validateTierList : List JVal → ℕ → V (List Dict)
  | [], _ => .ok []
  | t :: ts, i =>
    vbind (validate_tier t i) fun d =>
    vbind (validateTierList ts (i + 1)) fun rest =>
    .ok (d :: rest)

/-- The `pricing_model` step of `validate_pricing_record` (lines 344-349):
only required to be a non-empty string when truthy; falsy values default to
`"unknown"`. -/
def recPmStep (d : Dict) : V JVal :=
  if truthy ((dget d "pricing_model").getD .vnull) then
    vbind (validate_nonempty_string ((dget d "pricing_model").getD .vnull)
        "pricing_model") fun s => .ok (JVal.vstr s)
  else .ok (JVal.vstr "unknown")

/-- The `tiers` step of `validate_pricing_record` (lines 362-369). -/
def recTiersStep (d : Dict) : V JVal :=
  match dget d "tiers" with
  | none => .ok (JVal.vlist [])
  | some v =>
    if v = .vnull then .ok (JVal.vlist [])
    else
      match v with
      | .vlist l =>
        vbind (validateTierList l 0) fun vt => .ok (JVal.vlist (vt.map JVal.vdict))
      | _ => .error ⟨"tiers", "Expected array", v⟩

/-- The validated-field dictionary built by `validate_pricing_record`
(lines 351-374), in insertion order. -/
def recOut (pid pname : String) (ptype pm cmp hp tc mn mx tiers pu : JVal) : Dict :=
  dset (dset (dset (dset (dset (dset (dset (dset (dset (dset (dset []
    "provider_id" (.vstr pid))
    "provider_name" (.vstr pname))
    "proxy_type" ptype)
    "pricing_model" pm)
    "comparable" cmp)
    "has_pricing" hp)
    "tier_count" tc)
    "min_price_per_gb" mn)
    "max_price_per_gb" mx)
    "tiers" tiers)
    "price_url" pu

/-- `validate_pricing_record` (lines 328-380). -/
def validate_pricing_record (record : JVal) (index : ℕ) : V Dict :=
  match record with
  | .vdict d =>
    vbind (validate_nonempty_string ((dget d "provider_id").getD .vnull)
        "provider_id") fun pid =>
    vbind (validate_nonempty_string ((dget d "provider_name").getD .vnull)
        "provider_name") fun pname =>
    vbind (validate_proxy_type ((dget d "proxy_type").getD .vnull)
        "proxy_type") fun ptype =>
    vbind (recPmStep d) fun pm =>
    vbind (validate_boolean ((dget d "comparable").getD (.vbool false))
        "comparable") fun cmp =>
    vbind (validate_boolean ((dget d "has_pricing").getD (.vbool false))
        "has_pricing") fun hp =>
    vbind (validate_nonnegative_int ((dget d "tier_count").getD (.vint 0))
        "tier_count") fun tc =>
    vbind (validate_nonnegative_number ((dget d "min_price_per_gb").getD .vnull)
        "min_price_per_gb") fun mn =>
    vbind (validate_nonnegative_number ((dget d "max_price_per_gb").getD .vnull)
        "max_price_per_gb") fun mx =>
    vbind (recTiersStep d) fun tiers =>
    vbind (validate_nullable_url ((dget d "price_url").getD .vnull)
        "price_url") fun pu =>
    .ok (passthrough d (recOut pid pname ptype pm cmp hp tc mn mx tiers pu))
  | _ => .error ⟨"pricing", "Expected object", record⟩

theorem vnes_str (m field s : String)
    (h : validate_nonempty_string (.vstr m) field = .ok s) : s = m := by
  simp only [validate_nonempty_string] at h
  by_cases hc : (pyStrip m.data).isEmpty = true
  · rw [if_pos hc] at h
    exact Except.noConfusion h
  · rw [if_neg hc] at h
    injection h with h
    exact h.symm

theorem vnes_shape (v : JVal) (field s : String)
    (h : validate_nonempty_string v field = .ok s) : v = .vstr s := by
  cases v with
  | vstr s₂ =>
    simp only [validate_nonempty_string] at h
    by_cases hc : (pyStrip s₂.data).isEmpty = true
    · rw [if_pos hc] at h
      exact Except.noConfusion h
    · rw [if_neg hc] at h
      injection h with h
      rw [h]
  | vnull => simp [validate_nonempty_string] at h
  | vbool b => simp [validate_nonempty_string] at h
  | vint n => simp [validate_nonempty_string] at h
  | vfloat q => simp [validate_nonempty_string] at h
  | vlist l => simp [validate_nonempty_string] at h
  | vdict d => simp [validate_nonempty_string] at h

theorem dget_some_containsKey (d : Dict) (k : String) (v : JVal)
    (h : dget d k = some v) : containsKey d k = true := by
  by_cases hc : containsKey d k = true
  · exact hc
  · have hnone := (dget_none_iff_not_containsKey d k).mpr (Bool.eq_false_iff.mpr hc)
    rw [hnone] at h
    exact Option.noConfusion h

theorem passthrough_preserve (d : Dict) (k : String) (v : JVal) :
    ∀ acc : Dict, dget acc k = some v → dget (passthrough d acc) k = some v := by
  induction d with
  | nil => intro acc h; exact h
  | cons p rest ih =>
    intro acc h
    simp only [passthrough, List.foldl_cons] at ih ⊢
    apply ih
    by_cases hc : containsKey acc p.1 = true
    · simpa [hc] using h
    · simp only [hc, Bool.false_eq_true, if_false]
      by_cases hk : k = p.1
      · subst hk
        exact absurd (dget_some_containsKey acc p.1 v h) hc
      · rw [dget_dset_ne _ _ _ _ hk]
        exact h

theorem stepOptNum_preserve (d : Dict) (key : String) (acc acc₂ : Dict) (k : String)
    (hk : k ≠ key) (h : stepOptNum d key acc = .ok acc₂) : dget acc₂ k = dget acc k := by
  unfold stepOptNum at h
  split at h
  · injection h with h
    rw [← h]
  next v heq =>
    split at h
    · injection h with h
      rw [← h]
    · cases hval : validate_nonnegative_number v key with
      | error e =>
        rw [hval] at h
        exact Except.noConfusion h
      | ok x =>
        rw [hval] at h
        simp only [vbind] at h
        injection h with h
        rw [← h, dget_dset_ne _ _ _ _ hk]

theorem stepOptBool_preserve (d : Dict) (key : String) (acc acc₂ : Dict) (k : String)
    (hk : k ≠ key) (h : stepOptBool d key acc = .ok acc₂) : dget acc₂ k = dget acc k := by
  unfold stepOptBool at h
  split at h
  · injection h with h
    rw [← h]
  next v heq =>
    split at h
    · injection h with h
      rw [← h]
    · cases hval : validate_boolean v key with
      | error e =>
        rw [hval] at h
        exact Except.noConfusion h
      | ok x =>
        rw [hval] at h
        simp only [vbind] at h
        injection h with h
        rw [← h, dget_dset_ne _ _ _ _ hk]

theorem stepIps_preserve (d : Dict) (acc acc₂ : Dict) (k : String)
    (hk : k ≠ "ips") (h : stepIps d acc = .ok acc₂) : dget acc₂ k = dget acc k := by
  unfold stepIps at h
  split at h
  · injection h with h
    rw [← h]
  · split at h
    · injection h with h
      rw [← h]
    · split at h
      · split at h
        · injection h with h
          rw [← h, dget_dset_ne _ _ _ _ hk]
        · exact Except.noConfusion h
      · split at h
        · injection h with h
          rw [← h, dget_dset_ne _ _ _ _ hk]
        · exact Except.noConfusion h
      · exact Except.noConfusion h

theorem vbind_ok {α β : Type} (x : V α) (f : α → V β) (b : β)
    (h : vbind x f = .ok b) : ∃ a, x = .ok a ∧ f a = .ok b := by
  cases x with
  | error e => exact Except.noConfusion h
  | ok a => exact ⟨a, rfl, h⟩

theorem recOut_pm (pid pname : String) (ptype pm cmp hp tc mn mx tiers pu : JVal) :
    dget (recOut pid pname ptype pm cmp hp tc mn mx tiers pu) "pricing_model"
      = some pm := by
  unfold recOut
  rw [dget_dset_ne _ _ _ _ (by decide), dget_dset_ne _ _ _ _ (by decide),
    dget_dset_ne _ _ _ _ (by decide), dget_dset_ne _ _ _ _ (by decide),
    dget_dset_ne _ _ _ _ (by decide), dget_dset_ne _ _ _ _ (by decide),
    dget_dset_ne _ _ _ _ (by decide), dget_dset_same]

/-- An accepted record's validated `pricing_model` field is whatever the
`pricing_model` step produced: the later steps and the passthrough loop do
not overwrite it. -/
theorem vpr_pm (d : Dict) (index : ℕ) (out : Dict)
    (h : validate_pricing_record (.vdict d) index = .ok out) :
    ∃ pmv, recPmStep d = .ok pmv ∧ dget out "pricing_model" = some pmv := by
  simp only [validate_pricing_record] at h
  obtain ⟨pid, h₁, h⟩ := vbind_ok _ _ _ h
  obtain ⟨pname, h₂, h⟩ := vbind_ok _ _ _ h
  obtain ⟨ptype, h₃, h⟩ := vbind_ok _ _ _ h
  obtain ⟨pm, h₄, h⟩ := vbind_ok _ _ _ h
  obtain ⟨cmp, h₅, h⟩ := vbind_ok _ _ _ h
  obtain ⟨hp, h₆, h⟩ := vbind_ok _ _ _ h
  obtain ⟨tc, h₇, h⟩ := vbind_ok _ _ _ h
  obtain ⟨mn, h₈, h⟩ := vbind_ok _ _ _ h
  obtain ⟨mx, h₉, h⟩ := vbind_ok _ _ _ h
  obtain ⟨tiers, h₁₀, h⟩ := vbind_ok _ _ _ h
  obtain ⟨pu, h₁₁, h⟩ := vbind_ok _ _ _ h
  injection h with h
  refine ⟨pm, h₄, ?_⟩
  rw [← h]
  exact passthrough_preserve d "pricing_model" pm _
    (recOut_pm pid pname ptype pm cmp hp tc mn mx tiers pu)

/-- An accepted tier with no `pricing_model` key gets `"unknown"`: the later
steps touch only `is_payg`, `price_per_ip` and `ips`, and the passthrough
loop does not overwrite an existing key. -/
theorem vt_pm_unknown (d : Dict) (i : ℕ) (out : Dict)
    (hnone : dget d "pricing_model" = none)
    (h : validate_tier (.vdict d) i = .ok out) :
    dget out "pricing_model" = some (.vstr "unknown") := by
  simp only [validate_tier] at h
  obtain ⟨acc₁, h₁, h⟩ := vbind_ok _ _ _ h
  obtain ⟨acc₂, h₂, h⟩ := vbind_ok _ _ _ h
  obtain ⟨acc₃, h₃, h⟩ := vbind_ok _ _ _ h
  obtain ⟨acc₄, h₄, h⟩ := vbind_ok _ _ _ h
  obtain ⟨acc₅, h₅, h⟩ := vbind_ok _ _ _ h
  obtain ⟨acc₆, h₆, h⟩ := vbind_ok _ _ _ h
  obtain ⟨acc₇, h₇, h⟩ := vbind_ok _ _ _ h
  injection h with h
  rw [hnone] at h₄
  injection h₄ with h₄
  rw [← h]
  apply passthrough_preserve
  rw [stepIps_preserve d acc₆ acc₇ "pricing_model" (by decide) h₇,
    stepOptNum_preserve d "price_per_ip" acc₅ acc₆ "pricing_model" (by decide) h₆,
    stepOptBool_preserve d "is_payg" acc₄ acc₅ "pricing_model" (by decide) h₅,
    ← h₄, dget_dset_same]

/-- A character that is not a slug character and is not a newline anywhere in
the list refutes both disjuncts of the slug regex match. -/
theorem slugMatch_false (l : List Char) (c : Char) (hc : c ∈ l)
    (h₁ : slugChar c = false) (h₂ : c ≠ '\n') : slugMatch l = false := by
  have hall : l.all slugChar = false := by
    simp only [List.all_eq_false]
    exact ⟨c, hc, by simp [h₁]⟩
  by_cases hlast : l.getLast? = some '\n'
  · have hne : l ≠ [] := by
      intro h
      rw [h] at hlast
      exact Option.noConfusion hlast
    have hg : l.getLast hne = '\n' := by
      rw [List.getLast?_eq_getLast l hne] at hlast
      exact Option.some.inj hlast
    have hcd : c ∈ l.dropLast := by
      have hdec := List.dropLast_append_getLast hne
      rw [← hdec] at hc
      rcases List.mem_append.mp hc with h | h
      · exact h
      · rw [hg] at h
        exact absurd (List.mem_singleton.mp h) h₂
    have hdall : l.dropLast.all slugChar = false := by
      simp only [List.all_eq_false]
      exact ⟨c, hcd, by simp [h₁]⟩
    simp [slugMatch, hall, hdall]
  · simp [slugMatch, hall, hlast]

/-- C8, as stated, is false on its URL half: `validate_url` accepts the
empty string unchanged (and `validate_nullable_url` maps it to null), even
though its scheme is neither `http` nor `https`. -/
theorem c8_counterexample :
    (splitScheme ("").data).1 ≠ "http" ∧ (splitScheme ("").data).1 ≠ "https" ∧
    validate_url (.vstr "") "price_url" = .ok "" ∧
    validate_nullable_url (.vstr "") "price_url" = .ok .vnull :=
  ⟨by decide, by decide, rfl, rfl⟩

/-- C8 (amended): the validators reject every negative number (int or
float) and negative integer; every slug containing a non-slug character
other than a lone trailing newline — in particular every uppercase letter
and the underscore; and every non-empty URL string whose scheme is neither
`http` nor `https`.  (The empty URL string is the one exception: it is
accepted.) -/
theorem c8_amended :
    (∀ (field : String) (n : ℤ), n < 0 →
      isErr (validate_nonnegative_number (.vint n) field) = true) ∧
    (∀ (field : String) (q : ℚ), q < 0 →
      isErr (validate_nonnegative_number (.vfloat q) field) = true) ∧
    (∀ (field : String) (n : ℤ), n < 0 →
      isErr (validate_nonnegative_int (.vint n) field) = true) ∧
    (∀ (field s : String) (c : Char), c ∈ s.data → slugChar c = false →
      c ≠ '\n' → isErr (validate_slug (.vstr s) field) = true) ∧
    (∀ c ∈ ("ABCDEFGHIJKLMNOPQRSTUVWXYZ_").data, slugChar c = false ∧ c ≠ '\n') ∧
    (∀ (field s : String), s ≠ "" → (splitScheme s.data).1 ≠ "http" →
      (splitScheme s.data).1 ≠ "https" →
      isErr (validate_url (.vstr s) field) = true) := by
  refine ⟨?_, ?_, ?_, ?_, by decide, ?_⟩
  · intro field n hn
    simp only [validate_nonnegative_number]
    rw [if_pos hn]
    rfl
  · intro field q hq
    simp only [validate_nonnegative_number]
    rw [if_pos hq]
    rfl
  · intro field n hn
    simp only [validate_nonnegative_int]
    rw [if_pos hn]
    rfl
  · intro field s c hc h₁ h₂
    unfold validate_slug
    cases hv : validate_nonempty_string (.vstr s) field with
    | error e => rfl
    | ok s₂ =>
      simp only [vbind]
      have hss : s₂ = s := vnes_str s field s₂ hv
      rw [hss, if_neg]
      · rfl
      · rw [slugMatch_false s.data c hc h₁ h₂]
        exact Bool.false_ne_true
  · intro field s hne h₁ h₂
    simp only [validate_url]
    rw [if_neg hne]
    by_cases hc : (splitScheme s.data).1 = "" ∨
        (splitNetloc (splitScheme s.data).2).isEmpty = true
    · rw [if_pos hc]
      rfl
    · rw [if_neg hc, if_pos ⟨h₁, h₂⟩]
      rfl

/-- C8 (amended), instantiated: a negative int, a negative rational, a
negative count, a slug with an uppercase letter and an underscore, and an
`ftp` URL are all rejected. -/
theorem c8_amended_witness :
    isErr (validate_nonnegative_number (.vint (-3)) "min_price_per_gb") = true ∧
    isErr (validate_nonnegative_number (.vfloat (mkRat (-1) 2)) "max_price_per_gb") = true ∧
    isErr (validate_nonnegative_int (.vint (-2)) "tier_count") = true ∧
    isErr (validate_slug (.vstr "Bad_Slug") "provider_id") = true ∧
    isErr (validate_url (.vstr "ftp://host.example/x") "price_url") = true :=
  ⟨c8_amended.1 "min_price_per_gb" (-3) (by decide),
   c8_amended.2.1 "max_price_per_gb" (mkRat (-1) 2) (by decide),
   c8_amended.2.2.1 "tier_count" (-2) (by decide),
   c8_amended.2.2.2.1 "provider_id" "Bad_Slug" 'B' (by decide) (by decide) (by decide),
   c8_amended.2.2.2.2.2 "price_url" "ftp://host.example/x" (by decide) (by decide)
     (by decide)⟩

/-- A pricing record carrying the out-of-enum tag `"bogus"`. -/
def c9WitRecord : Dict :=
  [("provider_id", .vstr "p"), ("provider_name", .vstr "n"),
   ("proxy_type", .vstr "residential"), ("pricing_model", .vstr "bogus")]

/-- The validated output `validate_pricing_record` produces for
`c9WitRecord`: the bogus tag is passed through. -/
def c9WitOut : Dict :=
  [("provider_id", .vstr "p"), ("provider_name", .vstr "n"),
   ("proxy_type", .vstr "residential"), ("pricing_model", .vstr "bogus"),
   ("comparable", .vbool false), ("has_pricing", .vbool false),
   ("tier_count", .vint 0), ("min_price_per_gb", .vnull),
   ("max_price_per_gb", .vnull), ("tiers", .vlist []), ("price_url", .vnull)]

/-- C9, as stated, is false for records: `validate_pricing_record` only
runs `validate_nonempty_string` on a truthy `pricing_model`, so a record
whose `pricing_model` is `"bogus"` — outside the enum — is accepted, with
the bogus tag kept in the output. -/
theorem c9_counterexample :
    "bogus" ∉ pricingModels ∧
    validate_pricing_record (.vdict c9WitRecord) 0 = .ok c9WitOut ∧
    dget c9WitOut "pricing_model" = some (.vstr "bogus") :=
  ⟨by decide, rfl, rfl⟩

/-- C9 (amended): the enum is enforced for tiers only — a tier whose
`pricing_model` string lies outside the enum is always rejected — while a
record's non-empty `pricing_model` string is never enum-checked: whenever
the record is accepted the string is passed through verbatim. -/
theorem c9_amended :
    (∀ (d : Dict) (m : String) (i : ℕ),
      dget d "pricing_model" = some (.vstr m) → m ∉ pricingModels →
      isErr (validate_tier (.vdict d) i) = true) ∧
    (∀ (d : Dict) (m : String) (index : ℕ) (out : Dict),
      dget d "pricing_model" = some (.vstr m) → m ≠ "" →
      validate_pricing_record (.vdict d) index = .ok out →
      dget out "pricing_model" = some (.vstr m)) := by
  constructor
  · intro d m i hm hnotin
    simp only [validate_tier]
    cases h₁ : stepOptNum d "gb" [] with
    | error e => rfl
    | ok acc₁ =>
      simp only [vbind]
      cases h₂ : stepOptNum d "price_per_gb" acc₁ with
      | error e => rfl
      | ok acc₂ =>
        simp only [vbind]
        cases h₃ : stepOptNum d "total" acc₂ with
        | error e => rfl
        | ok acc₃ =>
          simp only [vbind]
          simp only [hm, validate_pricing_model]
          rw [if_neg hnotin]
          rfl
  · intro d m index out hm hne h
    obtain ⟨pmv, hpm, hout⟩ := vpr_pm d index out h
    have htr : truthy ((dget d "pricing_model").getD .vnull) = true := by
      rw [hm]
      exact decide_eq_true hne
    unfold recPmStep at hpm
    rw [if_pos htr, hm] at hpm
    simp only [Option.getD_some] at hpm
    obtain ⟨s, hv, hs⟩ := vbind_ok _ _ _ hpm
    have hsm : s = m := vnes_str m "pricing_model" s hv
    injection hs with hs
    rw [hout, ← hs, hsm]

/-- C9 (amended), instantiated: the tier `{pricing_model: "bogus"}` is
rejected, while the record `c9WitRecord` carrying the same tag is accepted
with the tag passed through. -/
theorem c9_amended_witness :
    isErr (validate_tier (.vdict [("pricing_model", JVal.vstr "bogus")]) 0) = true ∧
    dget c9WitOut "pricing_model" = some (JVal.vstr "bogus") :=
  ⟨c9_amended.1 [("pricing_model", JVal.vstr "bogus")] "bogus" 0 rfl (by decide),
   c9_amended.2 c9WitRecord "bogus" 0 c9WitOut rfl (by decide) rfl⟩

/-- A pricing record with no `pricing_model` key at all. -/
def c10Rec : Dict :=
  [("provider_id", .vstr "q"), ("provider_name", .vstr "r"),
   ("proxy_type", .vstr "datacenter")]

/-- The validated output for `c10Rec`: accepted, with `pricing_model`
defaulted to `"unknown"`. -/
def c10Out : Dict :=
  [("provider_id", .vstr "q"), ("provider_name", .vstr "r"),
   ("proxy_type", .vstr "datacenter"), ("pricing_model", .vstr "unknown"),
   ("comparable", .vbool false), ("has_pricing", .vbool false),
   ("tier_count", .vint 0), ("min_price_per_gb", .vnull),
   ("max_price_per_gb", .vnull), ("tiers", .vlist []), ("price_url", .vnull)]

/-- C10: a missing `pricing_model` never causes rejection and defaults to
`"unknown"` — for tiers when the key is absent, for records when it is
absent, null or the empty string; concretely, a tier with only a `gb`
field and the record `c10Rec` are both accepted with `pricing_model =
"unknown"`. -/
theorem c10 :
    (∀ (d : Dict) (i : ℕ) (out : Dict), dget d "pricing_model" = none →
      validate_tier (.vdict d) i = .ok out →
      dget out "pricing_model" = some (.vstr "unknown")) ∧
    (∀ (d : Dict) (index : ℕ) (out : Dict),
      dget d "pricing_model" = none ∨ dget d "pricing_model" = some .vnull ∨
        dget d "pricing_model" = some (.vstr "") →
      validate_pricing_record (.vdict d) index = .ok out →
      dget out "pricing_model" = some (.vstr "unknown")) ∧
    validate_tier (.vdict [("gb", .vfloat 1)]) 0 =
      .ok [("gb", .vfloat 1), ("pricing_model", .vstr "unknown")] ∧
    validate_pricing_record (.vdict c10Rec) 0 = .ok c10Out := by
  refine ⟨vt_pm_unknown, ?_, rfl, rfl⟩
  intro d index out hcase h
  obtain ⟨pmv, hpm, hout⟩ := vpr_pm d index out h
  have hu : recPmStep d = .ok (.vstr "unknown") := by
    unfold recPmStep
    rcases hcase with hc | hc | hc <;> rw [hc] <;> rfl
  rw [hu] at hpm
  injection hpm with hpm
  rw [hout, ← hpm]

/-- C10, instantiated: a tier with an unrelated key and the record
`c10Rec`, both lacking `pricing_model`, are accepted with the field
defaulted to `"unknown"`. -/
theorem c10_witness :
    dget ([("note", JVal.vnull)] : Dict) "pricing_model" = none ∧
    dget ([("pricing_model", JVal.vstr "unknown"), ("note", JVal.vnull)] : Dict)
      "pricing_model" = some (.vstr "unknown") ∧
    dget c10Out "pricing_model" = some (.vstr "unknown") :=
  ⟨rfl,
   c10.1 [("note", JVal.vnull)] 0
     [("pricing_model", JVal.vstr "unknown"), ("note", JVal.vnull)] rfl rfl,
   c10.2.1 c10Rec 0 c10Out (Or.inl rfl) rfl⟩

end ProxyPrice
